import Mathlib

/-!
Verification of the geometry analysis and orientation-optimization engine of a
3D-printing cost estimator (sources: `src/lib/calculations.ts`,
`src/lib/orientation-analyzer.ts`, `src/components/print-calculator.tsx`).

The JavaScript source computes with IEEE doubles; this development is the exact
idealization over an arbitrary linear ordered field `F` (instantiated at `ℚ` or
`ℝ` for concrete inputs). The transcendental operations of the runtime
(`Math.sqrt`, `Math.cos`, ..., used via three.js) are passed in as an explicit
`RealOps` record; theorems that depend on square-root behaviour assume `IsSqrt`,
which the real square root satisfies. Where the floating-point program can
produce a non-finite value (division by zero, bounding box of an empty vertex
list) a separate `Option`-valued instrumented variant of the pipeline marks the
value as undefined (`none`).
-/

namespace PrintEstimator

/-- 3D vector, mirroring `THREE.Vector3` as used by the engine. -/
structure Vec3 (F : Type) where
  x : F
  y : F
  z : F
deriving DecidableEq, Repr

namespace Vec3

variable {F : Type} [LinearOrderedField F]

/-- `THREE.Vector3.add` (componentwise). -/
def add (a b : Vec3 F) : Vec3 F := ⟨a.x + b.x, a.y + b.y, a.z + b.z⟩

/-- `THREE.Vector3.sub` / `subVectors` (componentwise). -/
def sub (a b : Vec3 F) : Vec3 F := ⟨a.x - b.x, a.y - b.y, a.z - b.z⟩

/-- `THREE.Vector3.multiplyScalar` (and `divideScalar` via `1/s`). -/
def smul (c : F) (a : Vec3 F) : Vec3 F := ⟨c * a.x, c * a.y, c * a.z⟩

/-- `THREE.Vector3.negate`. -/
def neg (a : Vec3 F) : Vec3 F := ⟨-a.x, -a.y, -a.z⟩

/-- `THREE.Vector3.dot`. -/
def dot (a b : Vec3 F) : F := a.x * b.x + a.y * b.y + a.z * b.z

/-- `THREE.Vector3.cross` / `crossVectors`. -/
def cross (a b : Vec3 F) : Vec3 F :=
  ⟨a.y * b.z - a.z * b.y, a.z * b.x - a.x * b.z, a.x * b.y - a.y * b.x⟩

/-- The zero vector. -/
def zero : Vec3 F := ⟨0, 0, 0⟩

end Vec3

/-- The transcendental operations the engine obtains from the JavaScript
runtime (`Math.sqrt`, `Math.cos`, `Math.sin`, `Math.acos`, `Math.asin`,
`Math.atan2`, `Math.PI`), abstracted over the carrier field. -/
structure RealOps (F : Type) where
  sqrt : F → F
  cos : F → F
  sin : F → F
  acos : F → F
  asin : F → F
  atan2 : F → F → F
  pi : F

/-- `ops.sqrt` behaves as the real square root on nonnegative arguments.
`Real.sqrt` satisfies this. -/
def IsSqrt {F : Type} [LinearOrderedField F] (ops : RealOps F) : Prop :=
  ∀ q : F, 0 ≤ q → 0 ≤ ops.sqrt q ∧ ops.sqrt q * ops.sqrt q = q

namespace Vec3

variable {F : Type} [LinearOrderedField F]

/-- `THREE.Vector3.length`: the square root of the self dot product. -/
def length (ops : RealOps F) (a : Vec3 F) : F := ops.sqrt (dot a a)

/-- `THREE.Vector3.normalize`: `divideScalar(length() || 1)` — a vector of
length zero is left unchanged. -/
def normalize (ops : RealOps F) (a : Vec3 F) : Vec3 F :=
  let l := length ops a
  if l = 0 then a else smul (1 / l) a

end Vec3

/-- 3×3 matrix (the rotation part of a `THREE.Matrix4`), row-major fields. -/
structure Mat3 (F : Type) where
  m11 : F
  m12 : F
  m13 : F
  m21 : F
  m22 : F
  m23 : F
  m31 : F
  m32 : F
  m33 : F
deriving DecidableEq, Repr

namespace Mat3

variable {F : Type} [LinearOrderedField F]

/-- Matrix-vector product (`THREE.Vector3.applyMatrix4` for a matrix whose
fourth row and column are those of the identity). -/
def mulVec (m : Mat3 F) (v : Vec3 F) : Vec3 F :=
  ⟨m.m11 * v.x + m.m12 * v.y + m.m13 * v.z,
   m.m21 * v.x + m.m22 * v.y + m.m23 * v.z,
   m.m31 * v.x + m.m32 * v.y + m.m33 * v.z⟩

/-- Determinant, expanded along the first row. -/
def det (m : Mat3 F) : F :=
  m.m11 * (m.m22 * m.m33 - m.m23 * m.m32)
    - m.m12 * (m.m21 * m.m33 - m.m23 * m.m31)
    + m.m13 * (m.m21 * m.m32 - m.m22 * m.m31)

/-- Transpose. -/
def transpose (m : Mat3 F) : Mat3 F :=
  ⟨m.m11, m.m21, m.m31, m.m12, m.m22, m.m32, m.m13, m.m23, m.m33⟩

/-- Matrix product. -/
def mul (a b : Mat3 F) : Mat3 F :=
  ⟨a.m11 * b.m11 + a.m12 * b.m21 + a.m13 * b.m31,
   a.m11 * b.m12 + a.m12 * b.m22 + a.m13 * b.m32,
   a.m11 * b.m13 + a.m12 * b.m23 + a.m13 * b.m33,
   a.m21 * b.m11 + a.m22 * b.m21 + a.m23 * b.m31,
   a.m21 * b.m12 + a.m22 * b.m22 + a.m23 * b.m32,
   a.m21 * b.m13 + a.m22 * b.m23 + a.m23 * b.m33,
   a.m31 * b.m11 + a.m32 * b.m21 + a.m33 * b.m31,
   a.m31 * b.m12 + a.m32 * b.m22 + a.m33 * b.m32,
   a.m31 * b.m13 + a.m32 * b.m23 + a.m33 * b.m33⟩

/-- Identity matrix. -/
def one : Mat3 F := ⟨1, 0, 0, 0, 1, 0, 0, 0, 1⟩

/-- `THREE.Matrix3.invert`: the usual adjugate-based inverse, with the
all-zero matrix returned when the determinant is zero (as three.js does). -/
def invert (m : Mat3 F) : Mat3 F :=
  let d := det m
  if d = 0 then ⟨0, 0, 0, 0, 0, 0, 0, 0, 0⟩
  else
    let i := 1 / d
    ⟨i * (m.m22 * m.m33 - m.m23 * m.m32),
     i * (m.m13 * m.m32 - m.m12 * m.m33),
     i * (m.m12 * m.m23 - m.m13 * m.m22),
     i * (m.m23 * m.m31 - m.m21 * m.m33),
     i * (m.m11 * m.m33 - m.m13 * m.m31),
     i * (m.m13 * m.m21 - m.m11 * m.m23),
     i * (m.m21 * m.m32 - m.m22 * m.m31),
     i * (m.m12 * m.m31 - m.m11 * m.m32),
     i * (m.m11 * m.m22 - m.m12 * m.m21)⟩

end Mat3

/-!
## Volume Integrator (`src/lib/calculations.ts`)
-/

/-- `signedVolumeOfTriangle` (`calculations.ts`, line 156): signed volume of
the tetrahedron formed by the triangle and the origin. -/
def signedVolumeOfTriangle {F : Type} [LinearOrderedField F]
    (p1 p2 p3 : Vec3 F) : F :=
  Vec3.dot p1 (Vec3.cross p2 p3) / 6

/-- An indexed triangle mesh as consumed by the volume loop: a vertex position
list (the `position` attribute; `none` when the attribute is absent) and an
index list of vertex-index triples. The source first welds unindexed input
with `mergeVertices`, an efficiency step that the spec notes does not affect
the sum; the embedding starts from the indexed form. -/
structure VolumeGeometry (F : Type) where
  position : Option (List (Vec3 F))
  index : List (Nat × Nat × Nat)

/-- The accumulation loop of `calculateVolume` (`calculations.ts`, lines
46–59): sum the signed tetrahedron volumes over all index triples. Out-of-range
indices read the zero vector (the loop never produces them in the source). -/
def sumSignedVolume {F : Type} [LinearOrderedField F]
    (pos : List (Vec3 F)) (index : List (Nat × Nat × Nat)) : F :=
  index.foldl
    (fun volume t =>
      volume +
        signedVolumeOfTriangle (pos.getD t.1 Vec3.zero) (pos.getD t.2.1 Vec3.zero)
          (pos.getD t.2.2 Vec3.zero))
    0

/-- The STL branch of `calculateVolume` (`calculations.ts`, lines 13–63): a
geometry without a position attribute is rejected with an error; otherwise the
absolute value of the signed sum is resolved. -/
def calculateVolumeSTL {F : Type} [LinearOrderedField F]
    (g : VolumeGeometry F) : Except String F :=
  match g.position with
  | none => Except.error "Geometry does not have position attribute"
  | some pos => Except.ok |sumSignedVolume pos g.index|

/-- The 3MF branch of `calculateVolume` (`calculations.ts`, lines 64–145):
each mesh of the loaded object contributes the absolute value of its signed
sum; a mesh without a position attribute is skipped with a console warning
(contributing nothing), and the total is resolved without error. -/
def calculateVolume3MF {F : Type} [LinearOrderedField F]
    (meshes : List (VolumeGeometry F)) : F :=
  meshes.foldl
    (fun total g =>
      match g.position with
      | none => total
      | some pos => total + |sumSignedVolume pos g.index|)
    0

/-!
## Mesh model for the orientation analyzer (`src/lib/orientation-analyzer.ts`)

The analyzer walks the `position` and `normal` buffer attributes with a stride
of 3, treating each consecutive vertex triple as one face. The embedding
groups the two attributes into per-face records; the two Booleans record
whether each attribute is present (the source checks
`!this.geometry.attributes.position || !this.geometry.attributes.normal`).
-/

/-- One face: three vertex positions and three vertex normals. -/
structure FaceData (F : Type) where
  p1 : Vec3 F
  p2 : Vec3 F
  p3 : Vec3 F
  n1 : Vec3 F
  n2 : Vec3 F
  n3 : Vec3 F
deriving DecidableEq, Repr

/-- A `THREE.BufferGeometry` as the analyzer sees it, plus the
`boundingBox` field that `computeBoundingBox` caches into (the only piece of
state the analyzer mutates on its own geometry). -/
structure BufferGeometry (F : Type) where
  hasPosition : Bool
  hasNormal : Bool
  faces : List (FaceData F)
  boundingBoxCache : Option (Vec3 F × Vec3 F)
deriving DecidableEq, Repr

variable {F : Type} [LinearOrderedField F]

/-- A face whose entries are all zero; `List.getD` default (never used at
in-range indices). -/
def zeroFace : FaceData F :=
  ⟨Vec3.zero, Vec3.zero, Vec3.zero, Vec3.zero, Vec3.zero, Vec3.zero⟩

/-- All vertex positions of the geometry, in attribute order. -/
def positionsList (g : BufferGeometry F) : List (Vec3 F) :=
  (g.faces.map (fun f => [f.p1, f.p2, f.p3])).join

/-- Componentwise minimum (`THREE.Box3.expandByPoint` on the min corner). -/
def vmin (a b : Vec3 F) : Vec3 F := ⟨min a.x b.x, min a.y b.y, min a.z b.z⟩

/-- Componentwise maximum (`THREE.Box3.expandByPoint` on the max corner). -/
def vmax (a b : Vec3 F) : Vec3 F := ⟨max a.x b.x, max a.y b.y, max a.z b.z⟩

/-- `THREE.BufferGeometry.computeBoundingBox`: the axis-aligned bounding box
of the position attribute. For an empty vertex list three.js produces the
"empty" box (min `+∞`, max `-∞`); that non-finite case is modelled as
`none`. -/
def computeBoundingBox (g : BufferGeometry F) : Option (Vec3 F × Vec3 F) :=
  match positionsList g with
  | [] => none
  | p :: ps => some (ps.foldl (fun mm q => (vmin mm.1 q, vmax mm.2 q)) (p, p))

/-- The world up axis `new THREE.Vector3(0, 1, 0)`. -/
def upVector : Vec3 F := ⟨0, 1, 0⟩

/-- `new THREE.Vector3(0, -1, 0)`. -/
def downVector : Vec3 F := ⟨0, -1, 0⟩

/-- `normalThreshold` (analyzer field, line 27). -/
def normalThreshold : F := 0.95

/-- `holeDetectionThreshold` (analyzer field, line 28). -/
def holeDetectionThreshold : F := 0.8

/-- The face normal as the analyzer computes it (lines 82–86 and elsewhere):
the average of the three vertex normals, normalized. -/
def faceNormal (ops : RealOps F) (f : FaceData F) : Vec3 F :=
  Vec3.normalize ops
    (Vec3.smul (1 / 3) (Vec3.add (Vec3.add f.n1 f.n2) f.n3))

/-- Result record of feature detection (`FeatureDetectionResult`). -/
structure FeatureDetectionResult (F : Type) where
  hasFlatSurfaces : Bool
  flatSurfaceIndices : List Nat
  hasHoles : Bool
  holeIndices : List Nat
  hasOverhangs : Bool
  overhangIndices : List Nat
  functionalDirection : Option (Vec3 F)
deriving DecidableEq, Repr

/-- The freshly initialized result (lines 53–60), also what `detectFeatures`
returns when an attribute is missing. -/
def emptyFeatures : FeatureDetectionResult F :=
  ⟨false, [], false, [], false, [], none⟩

/-- `isPotentialHoleFace` (lines 122–153): the face normal points toward the
center of the geometry's bounding box beyond `holeDetectionThreshold`. -/
def isPotentialHoleFace (ops : RealOps F) (g : BufferGeometry F)
    (f : FaceData F) (normal : Vec3 F) : Bool :=
  let center := Vec3.smul (1 / 3) (Vec3.add (Vec3.add f.p1 f.p2) f.p3)
  match computeBoundingBox g with
  | some (mn, mx) =>
    let geometryCenter := Vec3.smul (1 / 2) (Vec3.add mn mx)
    let toCenterVector := Vec3.normalize ops (Vec3.sub geometryCenter center)
    decide (holeDetectionThreshold < Vec3.dot normal toCenterVector)
  | none => false

/-- `processHoleCandidates` (lines 156–163): the simplified implementation
returns the candidates unchanged. -/
def processHoleCandidates (candidates : List Nat) : List Nat := candidates

/-- `determineFunctionalDirection` (lines 166–192): the negated, normalized
average of the (unit) face normals of the hole faces. -/
def determineFunctionalDirection (ops : RealOps F) (g : BufferGeometry F)
    (holeIndices : List Nat) : Vec3 F :=
  let avgNormal := holeIndices.foldl
    (fun acc index => Vec3.add acc (faceNormal ops (g.faces.getD index zeroFace)))
    Vec3.zero
  let avgNormal :=
    if holeIndices.length > 0 then
      Vec3.smul (1 / (holeIndices.length : F)) avgNormal
    else avgNormal
  Vec3.normalize ops (Vec3.neg avgNormal)

/-- Whether a face counts as a flat up-facing surface (lines 89–92). -/
def isFlatFace (ops : RealOps F) (f : FaceData F) : Bool :=
  decide (normalThreshold < Vec3.dot (faceNormal ops f) upVector)

/-- Whether a face counts as an overhang (lines 101–104). -/
def isOverhangFace (ops : RealOps F) (f : FaceData F) : Bool :=
  decide (normalThreshold * (0.7 : F) < Vec3.dot (faceNormal ops f) downVector)

/-- `detectFeatures` (lines 51–119). When either attribute is missing the
source logs a console warning and returns the all-false initial record — it
does not raise. The single pass over the faces is rendered as three filtered
index lists (the source pushes `i / 3` for each face that passes a test, in
face order, which is the same list). -/
def detectFeatures (ops : RealOps F) (g : BufferGeometry F) :
    FeatureDetectionResult F :=
  if g.hasPosition = false ∨ g.hasNormal = false then emptyFeatures
  else
    let flatIdx := (g.faces.enum.filter (fun fi => isFlatFace ops fi.2)).map
      (fun fi => fi.1)
    let holeIdx := (g.faces.enum.filter
      (fun fi => isPotentialHoleFace ops g fi.2 (faceNormal ops fi.2))).map
      (fun fi => fi.1)
    let overhangIdx := (g.faces.enum.filter (fun fi => isOverhangFace ops fi.2)).map
      (fun fi => fi.1)
    if holeIdx.length > 0 then
      let processed := processHoleCandidates holeIdx
      { hasFlatSurfaces := !flatIdx.isEmpty
        flatSurfaceIndices := flatIdx
        hasHoles := true
        holeIndices := processed
        hasOverhangs := !overhangIdx.isEmpty
        overhangIndices := overhangIdx
        functionalDirection :=
          if processed.length > 0 then
            some (determineFunctionalDirection ops g processed)
          else none }
    else
      { hasFlatSurfaces := !flatIdx.isEmpty
        flatSurfaceIndices := flatIdx
        hasHoles := false
        holeIndices := []
        hasOverhangs := !overhangIdx.isEmpty
        overhangIndices := overhangIdx
        functionalDirection := none }

/-!
## Rotations: Euler angles, quaternions, rotation matrices

The analyzer represents candidate orientations as `THREE.Euler` values
(default rotation order XYZ) and converts them to matrices with
`Matrix4.makeRotationFromEuler`; the functional-direction candidate is built
via `Quaternion.setFromAxisAngle` and `Euler.setFromQuaternion`.
-/

/-- `THREE.Euler` (rotation order XYZ, the default, which the source never
changes). -/
structure Euler (F : Type) where
  x : F
  y : F
  z : F
deriving DecidableEq, Repr

/-- `THREE.Quaternion`. -/
structure Quat (F : Type) where
  x : F
  y : F
  z : F
  w : F
deriving DecidableEq, Repr

/-- `THREE.Quaternion.setFromAxisAngle` (axis assumed normalized by the
caller). -/
def quatFromAxisAngle (ops : RealOps F) (axis : Vec3 F) (angle : F) : Quat F :=
  let halfAngle := angle / 2
  let s := ops.sin halfAngle
  ⟨axis.x * s, axis.y * s, axis.z * s, ops.cos halfAngle⟩

/-- The rotation part of `THREE.Matrix4.makeRotationFromQuaternion` (unit
scale, zero translation). -/
def matrixFromQuaternion (q : Quat F) : Mat3 F :=
  let x2 := q.x + q.x
  let y2 := q.y + q.y
  let z2 := q.z + q.z
  let xx := q.x * x2
  let xy := q.x * y2
  let xz := q.x * z2
  let yy := q.y * y2
  let yz := q.y * z2
  let zz := q.z * z2
  let wx := q.w * x2
  let wy := q.w * y2
  let wz := q.w * z2
  ⟨1 - (yy + zz), xy - wz, xz + wy,
   xy + wz, 1 - (xx + zz), yz - wx,
   xz - wy, yz + wx, 1 - (xx + yy)⟩

/-- `THREE.MathUtils.clamp (value, min, max)`. -/
def clampF (value lo hi : F) : F := max lo (min hi value)

/-- `THREE.Euler.setFromQuaternion` for order XYZ: build the rotation matrix
from the quaternion and extract angles (`Euler.setFromRotationMatrix`). -/
def eulerFromQuaternion (ops : RealOps F) (q : Quat F) : Euler F :=
  let te := matrixFromQuaternion q
  let y := ops.asin (clampF te.m13 (-1) 1)
  if |te.m13| < (0.9999999 : F) then
    ⟨ops.atan2 (-te.m23) te.m33, y, ops.atan2 (-te.m12) te.m11⟩
  else
    ⟨ops.atan2 te.m32 te.m22, y, 0⟩

/-- The rotation part of `THREE.Matrix4.makeRotationFromEuler`, order XYZ. -/
def eulerMatrix (ops : RealOps F) (e : Euler F) : Mat3 F :=
  let a := ops.cos e.x
  let b := ops.sin e.x
  let c := ops.cos e.y
  let d := ops.sin e.y
  let e2 := ops.cos e.z
  let f := ops.sin e.z
  let ae := a * e2
  let af := a * f
  let be := b * e2
  let bf := b * f
  ⟨c * e2, -(c * f), d,
   af + be * d, ae - bf * d, -(b * c),
   bf - ae * d, be + af * d, a * c⟩

/-- `generateCandidateOrientations` (lines 195–228): the six axis-aligned
orientations, plus — when a functional direction exists and the normalized
cross product with up passes the length test — the rotation aligning the
functional direction with up. -/
def generateCandidateOrientations (ops : RealOps F)
    (features : FeatureDetectionResult F) : List (Euler F) :=
  let candidates : List (Euler F) :=
    [⟨0, 0, 0⟩,
     ⟨ops.pi / 2, 0, 0⟩,
     ⟨-(ops.pi / 2), 0, 0⟩,
     ⟨0, ops.pi / 2, 0⟩,
     ⟨0, -(ops.pi / 2), 0⟩,
     ⟨ops.pi, 0, 0⟩]
  match features.functionalDirection with
  | some fd =>
    let rotationAxis := Vec3.normalize ops (Vec3.cross fd upVector)
    if (0.01 : F) < Vec3.length ops rotationAxis then
      let angle := ops.acos (Vec3.dot fd upVector)
      let quaternion := quatFromAxisAngle ops rotationAxis angle
      candidates ++ [eulerFromQuaternion ops quaternion]
    else candidates
  | none => candidates

/-!
## Orientation scoring
-/

/-- `OrientationResult` (analyzer, lines 4–11). -/
structure OrientationResult (F : Type) where
  rotation : Euler F
  score : F
  supportVolume : F
  printTime : F
  quality : F
  description : String
deriving DecidableEq, Repr

/-- `THREE.BufferGeometry.applyMatrix4` for the rotation-only matrices the
analyzer uses: positions are mapped through the matrix, normals through the
normal matrix (inverse transpose of the 3×3 block) and re-normalized, as
`Vector3.applyNormalMatrix` does. -/
def applyMatrix4 (ops : RealOps F) (m : Mat3 F) (g : BufferGeometry F) :
    BufferGeometry F :=
  let nm := (Mat3.invert m).transpose
  { g with
    faces := g.faces.map (fun f =>
      ⟨Mat3.mulVec m f.p1, Mat3.mulVec m f.p2, Mat3.mulVec m f.p3,
       Vec3.normalize ops (Mat3.mulVec nm f.n1),
       Vec3.normalize ops (Mat3.mulVec nm f.n2),
       Vec3.normalize ops (Mat3.mulVec nm f.n3)⟩) }

/-- `calculateSupportVolume` (lines 271–295): the fraction of faces whose
(unit) face normal points down beyond 0.7, normalized by
`normals.count / 3`. -/
def calculateSupportVolume (ops : RealOps F) (g : BufferGeometry F) : F :=
  let supportFaceCount :=
    g.faces.countP (fun f => decide ((0.7 : F) < Vec3.dot (faceNormal ops f) downVector))
  (supportFaceCount : F) / (((3 * g.faces.length : Nat) : F) / 3)

/-- `estimatePrintTime` (lines 298–307): bounding-box height times
`1 + supportVolume * 0.5`. The `none` branch mirrors the source's
`if (!geometry.boundingBox) return 1` guard (three.js always materializes the
box object; for an empty vertex list the height would be non-finite, which the
instrumented variant reports as `none`). -/
def estimatePrintTime (g : BufferGeometry F) (supportVolume : F) : F :=
  match computeBoundingBox g with
  | none => 1
  | some (mn, mx) => (mx.y - mn.y) * (1 + supportVolume * 0.5)

/-- `estimatePrintQuality` (lines 310–324): map the functional direction's
alignment with up from `[-1, 1]` to `[0, 1]`, or a neutral `0.5`. -/
def estimatePrintQuality (g : BufferGeometry F)
    (features : FeatureDetectionResult F) : F :=
  if features.hasHoles then
    match features.functionalDirection with
    | some fd => (Vec3.dot fd upVector + 1) / 2
    | none => 0.5
  else 0.5

/-- `calculateOverallScore` (lines 327–365): fixed-weight combination plus a
flat 0.2 bonus when the functional direction aligns with the rotated up
axis beyond 0.8. -/
def calculateOverallScore (ops : RealOps F)
    (supportVolume printTime quality : F) (features : FeatureDetectionResult F)
    (orientation : Euler F) : F :=
  let supportScore := 1 - supportVolume
  let timeScore := 1 - printTime
  let score := supportScore * (0.3 : F) + timeScore * (0.2 : F) + quality * (0.5 : F)
  if features.hasHoles then
    match features.functionalDirection with
    | some fd =>
      let rotatedUp := Mat3.mulVec (eulerMatrix ops orientation) upVector
      let alignment := Vec3.dot fd rotatedUp
      if (0.8 : F) < alignment then score + 0.2 else score
    | none => score
  else score

/-- `Math.round`: round half toward positive infinity. -/
def jsRound [FloorRing F] (v : F) : Int := Int.floor (v + 1 / 2)

/-- `generateOrientationDescription` (lines 368–416). -/
def generateOrientationDescription [FloorRing F] (ops : RealOps F)
    (orientation : Euler F) (score supportVolume : F)
    (features : FeatureDetectionResult F) : String :=
  let xDeg := jsRound (orientation.x * 180 / ops.pi)
  let yDeg := jsRound (orientation.y * 180 / ops.pi)
  let zDeg := jsRound (orientation.z * 180 / ops.pi)
  let description := "Rotation: " ++ toString xDeg ++ "°, " ++ toString yDeg
    ++ "°, " ++ toString zDeg ++ "°"
  let description := description ++ " | Support: "
    ++ toString (jsRound (supportVolume * 100)) ++ "%"
  let description :=
    if features.hasHoles then
      match features.functionalDirection with
      | some fd =>
        let rotatedUp := Mat3.mulVec (eulerMatrix ops orientation) upVector
        let alignment := Vec3.dot fd rotatedUp
        if (0.8 : F) < alignment then
          description ++ " | Holes facing upward (optimal)"
        else if alignment < (-0.8 : F) then
          description ++ " | Holes facing downward (poor)"
        else description ++ " | Holes facing sideways"
      | none => description
    else description
  if (0.8 : F) < score then description ++ " | Excellent orientation"
  else if (0.6 : F) < score then description ++ " | Good orientation"
  else if (0.4 : F) < score then description ++ " | Average orientation"
  else description ++ " | Poor orientation"

/-- One iteration of the `scoreOrientations` loop (lines 234–265): rotate a
cloned geometry, recompute the factors, combine, describe. -/
def scoreOne [FloorRing F] (ops : RealOps F) (g : BufferGeometry F)
    (features : FeatureDetectionResult F) (orientation : Euler F) :
    OrientationResult F :=
  let tempGeometry := applyMatrix4 ops (eulerMatrix ops orientation) g
  let supportVolume := calculateSupportVolume ops tempGeometry
  let printTime := estimatePrintTime tempGeometry supportVolume
  let quality := estimatePrintQuality tempGeometry features
  let score := calculateOverallScore ops supportVolume printTime quality features orientation
  let description := generateOrientationDescription ops orientation score supportVolume features
  ⟨orientation, score, supportVolume, printTime, quality, description⟩

/-- `scoreOrientations` (lines 231–268). -/
def scoreOrientations [FloorRing F] (ops : RealOps F) (g : BufferGeometry F)
    (orientations : List (Euler F)) (features : FeatureDetectionResult F) :
    List (OrientationResult F) :=
  orientations.map (scoreOne ops g features)

/-- The comparison underlying `sort((a, b) => b.score - a.score)`: `a` may
precede `b` when `b.score ≤ a.score` (descending; JavaScript's sort is
stable). -/
def scoreDescBool (a b : OrientationResult F) : Bool := decide (b.score ≤ a.score)

/-- `analyzeOrientation` (lines 36–48): detect features, generate candidates,
score them, sort best-first. -/
def analyzeOrientation [FloorRing F] (ops : RealOps F) (g : BufferGeometry F) :
    List (OrientationResult F) :=
  let features := detectFeatures ops g
  let candidates := generateCandidateOrientations ops features
  let scoredOrientations := scoreOrientations ops g candidates features
  scoredOrientations.mergeSort scoreDescBool

/-- `computeBoundingBox` as a state update: the source caches the computed box
on the analyzer's own geometry (`this.geometry.computeBoundingBox()` inside
`isPotentialHoleFace` is the only write to shared state in a run). -/
def computeBoundingBoxRun (g : BufferGeometry F) : BufferGeometry F :=
  { g with boundingBoxCache := computeBoundingBox g }

/-- A full `analyzeOrientation` run together with the state of the analyzer's
geometry afterwards: attributes are untouched; the bounding-box cache has been
(re)computed iff `isPotentialHoleFace` ran at least once, i.e. both
attributes are present and there is at least one face. -/
def analyzeOrientationRun [FloorRing F] (ops : RealOps F)
    (g : BufferGeometry F) : List (OrientationResult F) × BufferGeometry F :=
  (analyzeOrientation ops g,
   if g.hasPosition && g.hasNormal && !g.faces.isEmpty then
     computeBoundingBoxRun g
   else g)

/-!
## Instrumented (definedness-tracking) variant of the scoring pipeline

IEEE-double evaluation of the source can produce non-finite values in exactly
two places: `calculateSupportVolume` divides by `normals.count / 3` (zero for
a mesh with no faces, giving `0 / 0 = NaN`), and the bounding box of an empty
vertex list is the empty box (so the height is non-finite). The variant below
is the same code with those two sites returning `none` instead.
-/

/-- `calculateSupportVolume` with a division-by-zero guard. -/
def calculateSupportVolumeOpt (ops : RealOps F) (g : BufferGeometry F) :
    Option F :=
  let supportFaceCount :=
    g.faces.countP (fun f => decide ((0.7 : F) < Vec3.dot (faceNormal ops f) downVector))
  let denom := ((3 * g.faces.length : Nat) : F) / 3
  if denom = 0 then none else some ((supportFaceCount : F) / denom)

/-- `estimatePrintTime` with the empty bounding box marked undefined. -/
def estimatePrintTimeOpt (g : BufferGeometry F) (supportVolume : F) :
    Option F :=
  match computeBoundingBox g with
  | none => none
  | some (mn, mx) => some ((mx.y - mn.y) * (1 + supportVolume * 0.5))

/-- Instrumented `scoreOrientations` loop body. -/
def scoreOneOpt [FloorRing F] (ops : RealOps F) (g : BufferGeometry F)
    (features : FeatureDetectionResult F) (orientation : Euler F) :
    Option (OrientationResult F) := do
  let tempGeometry := applyMatrix4 ops (eulerMatrix ops orientation) g
  let supportVolume ← calculateSupportVolumeOpt ops tempGeometry
  let printTime ← estimatePrintTimeOpt tempGeometry supportVolume
  let quality := estimatePrintQuality tempGeometry features
  let score := calculateOverallScore ops supportVolume printTime quality features orientation
  let description := generateOrientationDescription ops orientation score supportVolume features
  pure ⟨orientation, score, supportVolume, printTime, quality, description⟩

/-- Instrumented `analyzeOrientation`: `some` exactly when no candidate
evaluation hits a non-finite value. -/
def analyzeOrientationOpt [FloorRing F] (ops : RealOps F)
    (g : BufferGeometry F) : Option (List (OrientationResult F)) := do
  let features := detectFeatures ops g
  let candidates := generateCandidateOrientations ops features
  let scored ← candidates.mapM (scoreOneOpt ops g features)
  pure (scored.mergeSort scoreDescBool)

/-- `calculateSupportVolume` (lines 271–295) with its opening attribute read
made explicit: the function begins with
`const normals = geometry.attributes.normal` and dereferences
`normals.count`; when the geometry has no normal attribute, that read throws
a `TypeError` in JavaScript and `analyzeOrientation` returns no list. The
instrumented read returns `none` exactly then. -/
def calculateSupportVolumeAttr (ops : RealOps F) (g : BufferGeometry F) :
    Option F :=
  if g.hasNormal = true then some (calculateSupportVolume ops g) else none

/-!
## Build-plate fit checker (`src/components/print-calculator.tsx`)
-/

/-- The fixed build envelope (print-calculator, lines 267–271 / 545–549):
256 mm × 256 mm × 256 mm. -/
structure BuildVolume (F : Type) where
  width : F
  height : F
  depth : F

/-- The `buildVolume` constant. -/
def buildVolume : BuildVolume F := ⟨256, 256, 256⟩

/-- The result record of `tryToFitModelOnBuildPlate`. -/
structure FitResult (F : Type) where
  canFit : Bool
  offsetX : F
  offsetZ : F
deriving DecidableEq, Repr

/-- `tryToFitModelOnBuildPlate` (print-calculator, lines 697–756): reject
immediately if any raw dimension exceeds the envelope; otherwise compute the
horizontal offsets that pull the scaled bounding box back inside the scaled
footprint, and re-validate. -/
def tryToFitModelOnBuildPlate (modelSize modelMin modelMax : Vec3 F)
    (scale : F) : FitResult F :=
  let scaledWidth := (buildVolume : BuildVolume F).width * scale
  let scaledDepth := (buildVolume : BuildVolume F).depth * scale
  if modelSize.x > (buildVolume : BuildVolume F).width ∨
      modelSize.y > (buildVolume : BuildVolume F).height ∨
      modelSize.z > (buildVolume : BuildVolume F).depth then
    ⟨false, 0, 0⟩
  else
    let halfScaledWidth := scaledWidth / 2
    let halfScaledDepth := scaledDepth / 2
    let scaledModelMin : Vec3 F :=
      ⟨modelMin.x * scale, modelMin.y * scale, modelMin.z * scale⟩
    let scaledModelMax : Vec3 F :=
      ⟨modelMax.x * scale, modelMax.y * scale, modelMax.z * scale⟩
    let offsetX : F :=
      if scaledModelMin.x < -halfScaledWidth then
        -halfScaledWidth - scaledModelMin.x
      else if scaledModelMax.x > halfScaledWidth then
        halfScaledWidth - scaledModelMax.x
      else 0
    let offsetZ : F :=
      if scaledModelMin.z < -halfScaledDepth then
        -halfScaledDepth - scaledModelMin.z
      else if scaledModelMax.z > halfScaledDepth then
        halfScaledDepth - scaledModelMax.z
      else 0
    let adjustedMin : Vec3 F :=
      ⟨scaledModelMin.x + offsetX, scaledModelMin.y, scaledModelMin.z + offsetZ⟩
    let adjustedMax : Vec3 F :=
      ⟨scaledModelMax.x + offsetX, scaledModelMax.y, scaledModelMax.z + offsetZ⟩
    let fits :=
      decide (adjustedMin.x ≥ -halfScaledWidth) &&
      decide (adjustedMax.x ≤ halfScaledWidth) &&
      decide (adjustedMin.z ≥ -halfScaledDepth) &&
      decide (adjustedMax.z ≤ halfScaledDepth)
    ⟨fits, offsetX, offsetZ⟩

/-!
## Spec-side and auxiliary definitions used by the claims
-/

/-- The score formula as the spec states it (claim C2): weighted sum of the
three factors, plus a flat 0.2 exactly when the mesh has holes, a functional
direction exists, and its dot product with the rotated up-axis exceeds
0.8. -/
def specScore (ops : RealOps F) (features : FeatureDetectionResult F)
    (orientation : Euler F) (s t q : F) : F :=
  (1 - s) * (0.3 : F) + (1 - t) * (0.2 : F) + q * (0.5 : F) +
    (match features.functionalDirection with
     | some fd =>
       if features.hasHoles = true ∧
           (0.8 : F) < Vec3.dot fd (Mat3.mulVec (eulerMatrix ops orientation) upVector)
         then (0.2 : F) else 0
     | none => 0)

/-- The edge-cross sum of one triangle, `a×b + b×c + c×a` (twice its area
vector). -/
def triCross (a b c : Vec3 F) : Vec3 F :=
  Vec3.add (Vec3.add (Vec3.cross a b) (Vec3.cross b c)) (Vec3.cross c a)

/-- The translation contribution carried by one directed edge. -/
def edgeDot (t : Vec3 F) (q : Nat → Vec3 F) (e : Nat × Nat) : F :=
  Vec3.dot t (Vec3.cross (q e.1) (q e.2))

/-- The directed edges of one index triple. -/
def triEdges (t : Nat × Nat × Nat) : List (Nat × Nat) :=
  [(t.1, t.2.1), (t.2.1, t.2.2), (t.2.2, t.1)]

/-- All directed edges of an indexed mesh. -/
def meshEdges (index : List (Nat × Nat × Nat)) : List (Nat × Nat) :=
  (index.map triEdges).join

/-- A mesh is closed (watertight, consistently wound) when its directed edge
multiset is invariant under edge reversal: every directed edge is matched by
its reverse with the same multiplicity. -/
def IsClosed (index : List (Nat × Nat × Nat)) : Prop :=
  Multiset.map Prod.swap (meshEdges index : Multiset (Nat × Nat)) =
    (meshEdges index : Multiset (Nat × Nat))


/-!
## Concrete instances used by witnesses and counterexamples

`ratOps` instantiates the runtime operations over `ℚ`. Its `sqrt` is the
identity, which agrees with the real square root at `0` and `1`; concrete
inputs below are engineered so that every `sqrt` call in their evaluation is
on `0` or `1`, making the `ℚ` evaluation equal to the real-number one.
-/

/-- Runtime operations over `ℚ` for concrete evaluation (see the note
above). -/
def ratOps : RealOps ℚ := ⟨id, id, id, id, id, fun y _ => y, 0⟩

/-- A single triangle lying in the plane `y = 0` with upward vertex
normals. -/
def sampleFace : FaceData ℚ :=
  ⟨⟨0, 0, 0⟩, ⟨1, 0, 0⟩, ⟨0, 0, 1⟩, ⟨0, 1, 0⟩, ⟨0, 1, 0⟩, ⟨0, 1, 0⟩⟩

/-- A well-formed one-face geometry. -/
def sampleGeometry : BufferGeometry ℚ := ⟨true, true, [sampleFace], none⟩

/-- A well-formed geometry with no faces (both attributes present but
empty). -/
def emptyGeometry : BufferGeometry ℚ := ⟨true, true, [], none⟩

/-- The runtime operations over `ℝ`: the genuine square root and
trigonometric functions (`atan2` is modelled on the principal branch; only
`sqrt` matters to the theorems here). -/
noncomputable def realOps : RealOps ℝ :=
  ⟨Real.sqrt, Real.cos, Real.sin, Real.arccos, Real.arcsin,
   fun y x => Real.arctan (y / x), Real.pi⟩

/-- Two faces at `x = ±1` whose (inward) normals satisfy the hole test and
cancel each other exactly. Every square root taken while evaluating
`detectFeatures` on this geometry is of `0` or `1`, where `ratOps.sqrt = id`
agrees with the real square root. -/
def holeGeometry : BufferGeometry ℚ := ⟨true, true,
  [⟨⟨1, 0, 0⟩, ⟨1, 2, 4⟩, ⟨1, 4, 2⟩, ⟨-1, 0, 0⟩, ⟨-1, 0, 0⟩, ⟨-1, 0, 0⟩⟩,
   ⟨⟨-1, 0, 0⟩, ⟨-1, 2, 4⟩, ⟨-1, 4, 2⟩, ⟨1, 0, 0⟩, ⟨1, 0, 0⟩, ⟨1, 0, 0⟩⟩],
  none⟩

/-- A single-hole-face geometry over `ℝ` for the C8 witness. -/
noncomputable def oneHoleFace : BufferGeometry ℝ := ⟨true, true,
  [⟨⟨1, 0, 0⟩, ⟨1, 2, 4⟩, ⟨1, 4, 2⟩, ⟨-1, 0, 0⟩, ⟨-1, 0, 0⟩, ⟨-1, 0, 0⟩⟩],
  none⟩

/-- The average of the hole faces' unit face normals (spec wording of
claim C8). -/
def holeFaceNormalAverage (ops : RealOps F) (g : BufferGeometry F)
    (holeIndices : List Nat) : Vec3 F :=
  Vec3.smul (1 / (holeIndices.length : F))
    (holeIndices.foldl
      (fun acc index =>
        Vec3.add acc (faceNormal ops (g.faces.getD index zeroFace)))
      Vec3.zero)


/-!
## Basic lemmas about the vector and matrix operations
-/

namespace Vec3

@[simp] theorem add_x (a b : Vec3 F) : (add a b).x = a.x + b.x := rfl
@[simp] theorem add_y (a b : Vec3 F) : (add a b).y = a.y + b.y := rfl
@[simp] theorem add_z (a b : Vec3 F) : (add a b).z = a.z + b.z := rfl
@[simp] theorem sub_x (a b : Vec3 F) : (sub a b).x = a.x - b.x := rfl
@[simp] theorem sub_y (a b : Vec3 F) : (sub a b).y = a.y - b.y := rfl
@[simp] theorem sub_z (a b : Vec3 F) : (sub a b).z = a.z - b.z := rfl
@[simp] theorem smul_x (c : F) (a : Vec3 F) : (smul c a).x = c * a.x := rfl
@[simp] theorem smul_y (c : F) (a : Vec3 F) : (smul c a).y = c * a.y := rfl
@[simp] theorem smul_z (c : F) (a : Vec3 F) : (smul c a).z = c * a.z := rfl
@[simp] theorem neg_x (a : Vec3 F) : (neg a).x = -a.x := rfl
@[simp] theorem neg_y (a : Vec3 F) : (neg a).y = -a.y := rfl
@[simp] theorem neg_z (a : Vec3 F) : (neg a).z = -a.z := rfl
@[simp] theorem cross_x (a b : Vec3 F) : (cross a b).x = a.y * b.z - a.z * b.y := rfl
@[simp] theorem cross_y (a b : Vec3 F) : (cross a b).y = a.z * b.x - a.x * b.z := rfl
@[simp] theorem cross_z (a b : Vec3 F) : (cross a b).z = a.x * b.y - a.y * b.x := rfl
@[simp] theorem zero_x : (zero : Vec3 F).x = 0 := rfl
@[simp] theorem zero_y : (zero : Vec3 F).y = 0 := rfl
@[simp] theorem zero_z : (zero : Vec3 F).z = 0 := rfl

theorem dot_def (a b : Vec3 F) : dot a b = a.x * b.x + a.y * b.y + a.z * b.z := rfl

theorem ext_iff {a b : Vec3 F} : a = b ↔ a.x = b.x ∧ a.y = b.y ∧ a.z = b.z := by
  constructor
  · rintro rfl; exact ⟨rfl, rfl, rfl⟩
  · rcases a with ⟨ax, ay, az⟩; rcases b with ⟨bx, by', bz⟩
    rintro ⟨h1, h2, h3⟩
    simp only at h1 h2 h3
    subst h1; subst h2; subst h3; rfl

theorem dot_self_nonneg (a : Vec3 F) : 0 ≤ dot a a := by
  simp only [dot_def]
  nlinarith [mul_self_nonneg a.x, mul_self_nonneg a.y, mul_self_nonneg a.z]

theorem dot_self_eq_zero_iff (a : Vec3 F) : dot a a = 0 ↔ a = zero := by
  constructor
  · intro h
    rw [ext_iff]
    simp only [dot_def] at h
    refine ⟨?_, ?_, ?_⟩ <;> simp only [zero_x, zero_y, zero_z] <;>
      nlinarith [mul_self_nonneg a.x, mul_self_nonneg a.y, mul_self_nonneg a.z]
  · rintro rfl; simp [dot_def]

theorem sqrt_eq_zero_iff {ops : RealOps F} (h : IsSqrt ops) {q : F} (hq : 0 ≤ q) :
    ops.sqrt q = 0 ↔ q = 0 := by
  obtain ⟨hnn, hsq⟩ := h q hq
  constructor
  · intro h0; rw [← hsq, h0, mul_zero]
  · intro h0; subst h0
    nlinarith [hsq]

theorem length_eq_zero_iff {ops : RealOps F} (h : IsSqrt ops) (a : Vec3 F) :
    length ops a = 0 ↔ a = zero := by
  rw [length, sqrt_eq_zero_iff h (dot_self_nonneg a), dot_self_eq_zero_iff]

/-- Under an exact square root, a normalized nonzero vector has unit self dot
product. -/
theorem dot_normalize_self {ops : RealOps F} (h : IsSqrt ops) {a : Vec3 F}
    (ha : a ≠ zero) : dot (normalize ops a) (normalize ops a) = 1 := by
  have hda : dot a a ≠ 0 := fun h0 => ha ((dot_self_eq_zero_iff a).mp h0)
  have hsq : ops.sqrt (dot a a) * ops.sqrt (dot a a) = dot a a :=
    (h (dot a a) (dot_self_nonneg a)).2
  have hl : ops.sqrt (dot a a) ≠ 0 := by
    intro h0
    exact hda (by rw [← hsq, h0, mul_zero])
  have hexp : ∀ c : F, dot (smul c a) (smul c a) = c * c * dot a a := by
    intro c; simp only [dot_def, smul_x, smul_y, smul_z]; ring
  simp only [normalize, length]
  rw [if_neg hl, hexp]
  field_simp
  linarith [hsq]

/-- `normalize` commutes with negation: the two vectors have the same length.
Used to relate the source's `negate().normalize()` to the spec's
"negation of the normalized average". -/
theorem normalize_neg (ops : RealOps F) (a : Vec3 F) :
    normalize ops (neg a) = neg (normalize ops a) := by
  have hd : dot (neg a) (neg a) = dot a a := by
    simp only [dot_def, neg_x, neg_y, neg_z]; ring
  rw [normalize, normalize]
  simp only [length, hd]
  by_cases h0 : ops.sqrt (dot a a) = 0
  · rw [if_pos h0, if_pos h0]
  · rw [if_neg h0, if_neg h0]
    rw [ext_iff]
    refine ⟨?_, ?_, ?_⟩ <;>
      simp only [smul_x, smul_y, smul_z, neg_x, neg_y, neg_z] <;> ring

end Vec3

namespace Mat3

@[simp] theorem mulVec_x (m : Mat3 F) (v : Vec3 F) :
    (mulVec m v).x = m.m11 * v.x + m.m12 * v.y + m.m13 * v.z := rfl
@[simp] theorem mulVec_y (m : Mat3 F) (v : Vec3 F) :
    (mulVec m v).y = m.m21 * v.x + m.m22 * v.y + m.m23 * v.z := rfl
@[simp] theorem mulVec_z (m : Mat3 F) (v : Vec3 F) :
    (mulVec m v).z = m.m31 * v.x + m.m32 * v.y + m.m33 * v.z := rfl

end Mat3

/-!
## Claims C3 and C4: the build-plate fit checker
-/

/-- One axis of the offset computation: if the scaled extent fits the scaled
footprint, the computed offset puts both edges within the half-extents. -/
theorem axisOffset_spec (smn smx h : F) (hle : smx - smn ≤ 2 * h) :
    -h ≤ smn + (if smn < -h then -h - smn else if smx > h then h - smx else 0) ∧
    smx + (if smn < -h then -h - smn else if smx > h then h - smx else 0) ≤ h := by
  by_cases h1 : smn < -h
  · rw [if_pos h1]
    constructor <;> linarith
  · rw [if_neg h1]
    by_cases h2 : smx > h
    · rw [if_pos h2]
      push_neg at h1
      constructor <;> linarith
    · rw [if_neg h2]
      push_neg at h1 h2
      constructor <;> linarith

/-- C3: for a bounding box each of whose dimensions is within the
corresponding build-envelope dimension (256 on every axis), the fit checker
returns `canFit = true` — the computed X and Z offsets bring the horizontal
extents inside the envelope's half-extents, so the post-offset re-validation
succeeds — and a box already inside the footprint gets zero offsets. -/
theorem claim_C3_fit_within_envelope (modelSize modelMin modelMax : Vec3 F)
    (scale : F)
    (hsx : modelSize.x = modelMax.x - modelMin.x)
    (hsy : modelSize.y = modelMax.y - modelMin.y)
    (hsz : modelSize.z = modelMax.z - modelMin.z)
    (hscale : 0 ≤ scale)
    (hx : modelSize.x ≤ 256) (hy : modelSize.y ≤ 256) (hz : modelSize.z ≤ 256) :
    (tryToFitModelOnBuildPlate modelSize modelMin modelMax scale).canFit = true ∧
    (-(256 * scale / 2) ≤ modelMin.x * scale → modelMax.x * scale ≤ 256 * scale / 2 →
     -(256 * scale / 2) ≤ modelMin.z * scale → modelMax.z * scale ≤ 256 * scale / 2 →
     (tryToFitModelOnBuildPlate modelSize modelMin modelMax scale).offsetX = 0 ∧
     (tryToFitModelOnBuildPlate modelSize modelMin modelMax scale).offsetZ = 0) := by
  have hnot : ¬(modelSize.x > (256 : F) ∨ modelSize.y > (256 : F) ∨
      modelSize.z > (256 : F)) := by
    push_neg
    exact ⟨hx, hy, hz⟩
  have hxfit : modelMax.x * scale - modelMin.x * scale ≤ 2 * (256 * scale / 2) := by
    have : (modelMax.x - modelMin.x) * scale ≤ 256 * scale :=
      mul_le_mul_of_nonneg_right (by linarith) hscale
    nlinarith
  have hzfit : modelMax.z * scale - modelMin.z * scale ≤ 2 * (256 * scale / 2) := by
    have : (modelMax.z - modelMin.z) * scale ≤ 256 * scale :=
      mul_le_mul_of_nonneg_right (by linarith) hscale
    nlinarith
  have hax := axisOffset_spec (modelMin.x * scale) (modelMax.x * scale)
    (256 * scale / 2) hxfit
  have haz := axisOffset_spec (modelMin.z * scale) (modelMax.z * scale)
    (256 * scale / 2) hzfit
  simp only [tryToFitModelOnBuildPlate, buildVolume, if_neg hnot]
  constructor
  · simp only [Bool.and_eq_true, decide_eq_true_eq, ge_iff_le]
    exact ⟨⟨⟨hax.1, hax.2⟩, haz.1⟩, haz.2⟩
  · intro h1 h2 h3 h4
    constructor
    · rw [if_neg (not_lt.mpr h1), if_neg (not_lt.mpr h2)]
    · rw [if_neg (not_lt.mpr h3), if_neg (not_lt.mpr h4)]

/-- Witness for C3 at a concrete off-center box over `ℚ`. -/
theorem claim_C3_witness :
    ((100 : ℚ) = 300 - 200 ∧ (0 : ℚ) ≤ 1 / 100 ∧ (100 : ℚ) ≤ 256) ∧
    (tryToFitModelOnBuildPlate (⟨100, 50, 80⟩ : Vec3 ℚ) ⟨200, 0, -40⟩
      ⟨300, 50, 40⟩ (1 / 100)).canFit = true :=
  ⟨⟨by norm_num, by norm_num, by norm_num⟩,
   (claim_C3_fit_within_envelope ⟨100, 50, 80⟩ ⟨200, 0, -40⟩ ⟨300, 50, 40⟩
      (1 / 100) (by norm_num) (by norm_num) (by norm_num) (by norm_num)
      (by norm_num) (by norm_num) (by norm_num)).1⟩

/-- C4: for a bounding box with any dimension strictly exceeding the
corresponding build-envelope dimension, the fit checker returns
`canFit = false` with both offsets zero, regardless of position — no
translation is attempted. -/
theorem claim_C4_fit_oversized (modelSize modelMin modelMax : Vec3 F)
    (scale : F)
    (h : 256 < modelSize.x ∨ 256 < modelSize.y ∨ 256 < modelSize.z) :
    tryToFitModelOnBuildPlate modelSize modelMin modelMax scale =
      ⟨false, 0, 0⟩ := by
  simp only [tryToFitModelOnBuildPlate, buildVolume]
  rw [if_pos h]

/-- Witness for C4 at a concrete oversized box over `ℚ`. -/
theorem claim_C4_witness :
    (256 : ℚ) < 300 ∧
    tryToFitModelOnBuildPlate (⟨300, 10, 10⟩ : Vec3 ℚ) ⟨-150, 0, -5⟩
      ⟨150, 10, 5⟩ (1 / 100) = ⟨false, 0, 0⟩ :=
  ⟨by norm_num,
   claim_C4_fit_oversized ⟨300, 10, 10⟩ ⟨-150, 0, -5⟩ ⟨150, 10, 5⟩ (1 / 100)
     (Or.inl (by norm_num))⟩

/-!
## Claim C5: missing-attribute handling

The claim asserts that both the Volume Integrator and the Feature Detector
raise a `MalformedMesh` failure on missing data and never substitute a
default. On the code this holds only for the STL volume path: the Feature
Detector (`detectFeatures`, lines 62–66) logs a console warning and returns
the all-false initial record, and the 3MF volume path (`calculations.ts`,
lines 83–86) logs a warning and skips the mesh, contributing zero.
-/

/-- Helper: the 3MF fold ignores meshes without a position attribute. -/
theorem calculateVolume3MF_all_none (ms : List (VolumeGeometry F))
    (hms : ∀ m ∈ ms, m.position = none) : calculateVolume3MF ms = 0 := by
  have key : ∀ (a : F), ms.foldl
      (fun total g =>
        match g.position with
        | none => total
        | some pos => total + |sumSignedVolume pos g.index|) a = a := by
    induction ms with
    | nil => intro a; rfl
    | cons m ms ih =>
      intro a
      have hm : m.position = none := hms m (List.mem_cons_self m ms)
      simp only [List.foldl_cons, hm]
      exact ih (fun x hx => hms x (List.mem_cons_of_mem m hx)) a
  exact key 0

/-- C5 counterexample: a geometry that has positions but no normal attribute
makes the Feature Detector return the default all-false record (no failure is
raised, contradicting the claim that a `MalformedMesh` failure propagates),
and a 3MF object whose only mesh lacks position data yields total volume `0`
(a silently substituted zero, again contradicting the claim). -/
theorem claim_C5_counterexample :
    detectFeatures ratOps (⟨true, false, [sampleFace], none⟩ : BufferGeometry ℚ) =
      emptyFeatures ∧
    calculateVolume3MF ([⟨none, [(0, 1, 2)]⟩] : List (VolumeGeometry ℚ)) = 0 := by
  constructor
  · rfl
  · rfl

/-- C5 (amended): on input lacking position data the STL volume path fails
with an error (and does not return zero), but the Feature Detector does not
raise on missing position/normal data — it returns the default all-false
record — and the 3MF volume path silently skips position-less meshes,
returning zero for an object made only of such meshes. -/
theorem claim_C5_missing_attribute_behaviour (ops : RealOps F)
    (gv : VolumeGeometry F) (bg : BufferGeometry F)
    (ms : List (VolumeGeometry F))
    (hgv : gv.position = none)
    (hbg : bg.hasPosition = false ∨ bg.hasNormal = false)
    (hms : ∀ m ∈ ms, m.position = none) :
    calculateVolumeSTL gv = Except.error "Geometry does not have position attribute" ∧
    detectFeatures ops bg = emptyFeatures ∧
    calculateVolume3MF ms = 0 := by
  refine ⟨?_, ?_, ?_⟩
  · rw [calculateVolumeSTL, hgv]
  · rw [detectFeatures, if_pos hbg]
  · exact calculateVolume3MF_all_none ms hms

/-- Witness for the amended C5 at concrete inputs over `ℚ`. -/
theorem claim_C5_witness :
    ((⟨none, []⟩ : VolumeGeometry ℚ).position = none ∧
     (⟨true, false, [], none⟩ : BufferGeometry ℚ).hasNormal = false) ∧
    (calculateVolumeSTL (⟨none, []⟩ : VolumeGeometry ℚ) =
       Except.error "Geometry does not have position attribute" ∧
     detectFeatures ratOps (⟨true, false, [], none⟩ : BufferGeometry ℚ) =
       emptyFeatures ∧
     calculateVolume3MF ([⟨none, [(0, 1, 2)]⟩] : List (VolumeGeometry ℚ)) = 0) :=
  ⟨⟨rfl, rfl⟩,
   claim_C5_missing_attribute_behaviour ratOps ⟨none, []⟩ ⟨true, false, [], none⟩
     [⟨none, [(0, 1, 2)]⟩] rfl (Or.inr rfl) (by
       intro m hm
       simp only [List.mem_singleton] at hm
       subst hm
       rfl)⟩

/-!
## Claim C2: the score formula
-/

/-- Decomposition helper: every member of `analyzeOrientation`'s output is
`scoreOne` of some generated candidate (sorting only permutes). -/
theorem mem_analyzeOrientation [FloorRing F] (ops : RealOps F)
    (g : BufferGeometry F) (r : OrientationResult F)
    (hr : r ∈ analyzeOrientation ops g) :
    ∃ o ∈ generateCandidateOrientations ops (detectFeatures ops g),
      r = scoreOne ops g (detectFeatures ops g) o := by
  simp only [analyzeOrientation] at hr
  have hr2 : r ∈ scoreOrientations ops g
      (generateCandidateOrientations ops (detectFeatures ops g))
      (detectFeatures ops g) :=
    (List.mergeSort_perm _ scoreDescBool).mem_iff.mp hr
  rw [scoreOrientations] at hr2
  obtain ⟨o, ho, heq⟩ := List.mem_map.mp hr2
  exact ⟨o, ho, heq.symm⟩

/-- The source's `calculateOverallScore` computes exactly the spec
formula. -/
theorem calculateOverallScore_eq_specScore (ops : RealOps F) (s t q : F)
    (features : FeatureDetectionResult F) (orientation : Euler F) :
    calculateOverallScore ops s t q features orientation =
      specScore ops features orientation s t q := by
  rw [calculateOverallScore, specScore]
  cases hfd : features.functionalDirection with
  | none =>
    cases hh : features.hasHoles <;> simp <;> try ring
  | some fd =>
    cases hh : features.hasHoles
    · simp
      try ring
    · by_cases hal : (0.8 : F) <
        Vec3.dot fd (Mat3.mulVec (eulerMatrix ops orientation) upVector)
      · simp [hal]
        try ring
      · simp [hal]
        try ring

/-- C2: for every candidate orientation, the emitted score equals
(1 − support fraction)·0.3 + (1 − time proxy)·0.2 + quality·0.5, plus an
additional flat 0.2 iff the mesh has holes, a functional direction exists,
and its dot product with the rotated up-axis exceeds 0.8. -/
theorem claim_C2_score_formula [FloorRing F] (ops : RealOps F)
    (g : BufferGeometry F) (r : OrientationResult F)
    (hr : r ∈ analyzeOrientation ops g) :
    r.score = specScore ops (detectFeatures ops g) r.rotation r.supportVolume
      r.printTime r.quality := by
  obtain ⟨o, ho, rfl⟩ := mem_analyzeOrientation ops g r hr
  simp only [scoreOne]
  exact calculateOverallScore_eq_specScore ops _ _ _ _ o

/-- Witness for C2: a concrete emitted result of a concrete mesh (the scored
identity candidate, which the sort only permutes). -/
theorem claim_C2_witness :
    scoreOne ratOps emptyGeometry (detectFeatures ratOps emptyGeometry)
      ⟨0, 0, 0⟩ ∈ analyzeOrientation ratOps emptyGeometry ∧
    (scoreOne ratOps emptyGeometry (detectFeatures ratOps emptyGeometry)
      ⟨0, 0, 0⟩).score =
      specScore ratOps (detectFeatures ratOps emptyGeometry)
        (scoreOne ratOps emptyGeometry (detectFeatures ratOps emptyGeometry)
          ⟨0, 0, 0⟩).rotation
        (scoreOne ratOps emptyGeometry (detectFeatures ratOps emptyGeometry)
          ⟨0, 0, 0⟩).supportVolume
        (scoreOne ratOps emptyGeometry (detectFeatures ratOps emptyGeometry)
          ⟨0, 0, 0⟩).printTime
        (scoreOne ratOps emptyGeometry (detectFeatures ratOps emptyGeometry)
          ⟨0, 0, 0⟩).quality := by
  have hmem : scoreOne ratOps emptyGeometry (detectFeatures ratOps emptyGeometry)
      ⟨0, 0, 0⟩ ∈ analyzeOrientation ratOps emptyGeometry := by
    simp only [analyzeOrientation, scoreOrientations]
    refine (List.mergeSort_perm _ scoreDescBool).mem_iff.mpr
      (List.mem_map_of_mem _ ?_)
    have hfd : detectFeatures ratOps emptyGeometry = emptyFeatures := rfl
    rw [hfd]
    simp [generateCandidateOrientations, emptyFeatures]
  exact ⟨hmem, claim_C2_score_formula ratOps emptyGeometry _ hmem⟩

/-!
## Claim C7: volume invariance under rigid motion and winding reversal

The divergence-theorem argument: a linear map scales every signed tetrahedron
volume by its determinant, and the translation contribution per triangle is
`t · (area vector) / 3`, which sums to zero over a closed mesh because the
area vectors decompose over directed edges and a closed mesh's directed edge
multiset is invariant under edge reversal.
-/

/-- Folding `+ f x` is the sum of the mapped list. -/
theorem foldl_add_eq_sum {α : Type} (l : List α) (f : α → F) (a : F) :
    l.foldl (fun acc x => acc + f x) a = a + (l.map f).sum := by
  induction l generalizing a with
  | nil => simp
  | cons x l ih =>
    simp only [List.foldl_cons, List.map_cons, List.sum_cons, ih]
    ring

/-- `sumSignedVolume` as a mapped sum. -/
theorem sumSignedVolume_eq_sum (pos : List (Vec3 F))
    (index : List (Nat × Nat × Nat)) :
    sumSignedVolume pos index =
      (index.map (fun t => signedVolumeOfTriangle (pos.getD t.1 Vec3.zero)
        (pos.getD t.2.1 Vec3.zero) (pos.getD t.2.2 Vec3.zero))).sum := by
  rw [sumSignedVolume, foldl_add_eq_sum, zero_add]

theorem sumMap_add {α : Type} (l : List α) (f g : α → F) :
    (l.map fun a => f a + g a).sum = (l.map f).sum + (l.map g).sum := by
  induction l with
  | nil => simp
  | cons x l ih =>
    simp only [List.map_cons, List.sum_cons, ih]
    ring

theorem sumMap_mul_left {α : Type} (l : List α) (c : F) (f : α → F) :
    (l.map fun a => c * f a).sum = c * (l.map f).sum := by
  induction l with
  | nil => simp
  | cons x l ih =>
    simp only [List.map_cons, List.sum_cons, ih]
    ring

theorem sumMap_div {α : Type} (l : List α) (f : α → F) (c : F) :
    (l.map fun a => f a / c).sum = (l.map f).sum / c := by
  induction l with
  | nil => simp
  | cons x l ih =>
    simp only [List.map_cons, List.sum_cons, ih]
    ring

theorem sumMap_neg {α : Type} (l : List α) (f : α → F) :
    (l.map fun a => -f a).sum = -(l.map f).sum := by
  induction l with
  | nil => simp
  | cons x l ih =>
    simp only [List.map_cons, List.sum_cons, ih]
    ring

/-- A rigid motion `p ↦ R p + t` acts on a signed tetrahedron volume as
determinant scaling plus a translation term supported on the triangle's
edge-cross sum. -/
theorem signedVolume_rigid (R : Mat3 F) (t a b c : Vec3 F) :
    signedVolumeOfTriangle (Vec3.add (Mat3.mulVec R a) t)
        (Vec3.add (Mat3.mulVec R b) t) (Vec3.add (Mat3.mulVec R c) t) =
      Mat3.det R * signedVolumeOfTriangle a b c +
        Vec3.dot t (triCross (Mat3.mulVec R a) (Mat3.mulVec R b)
          (Mat3.mulVec R c)) / 6 := by
  simp only [signedVolumeOfTriangle, triCross, Vec3.dot_def, Mat3.det,
    Vec3.add_x, Vec3.add_y, Vec3.add_z, Vec3.cross_x, Vec3.cross_y,
    Vec3.cross_z, Mat3.mulVec_x, Mat3.mulVec_y, Mat3.mulVec_z]
  ring

/-- Swapping the last two vertices negates the signed volume. -/
theorem signedVolume_swap (a b c : Vec3 F) :
    signedVolumeOfTriangle a c b = -signedVolumeOfTriangle a b c := by
  simp only [signedVolumeOfTriangle, Vec3.dot_def, Vec3.cross_x, Vec3.cross_y,
    Vec3.cross_z]
  ring

/-- Summing an edge function triangle-by-triangle equals summing it over all
directed edges. -/
theorem sumMap_triEdges (index : List (Nat × Nat × Nat)) (f : Nat × Nat → F) :
    (index.map (fun t => f (t.1, t.2.1) + f (t.2.1, t.2.2) + f (t.2.2, t.1))).sum
      = ((meshEdges index).map f).sum := by
  induction index with
  | nil => simp [meshEdges]
  | cons t ts ih =>
    have hme : meshEdges (t :: ts) = triEdges t ++ meshEdges ts := rfl
    rw [List.map_cons, List.sum_cons, ih, hme, List.map_append,
      List.sum_append, triEdges]
    simp only [List.map_cons, List.map_nil, List.sum_cons, List.sum_nil]
    ring

/-- Over a reversal-invariant edge multiset, an edge-antisymmetric function
sums to zero. -/
theorem sum_swapInvariant_eq_zero (E : Multiset (Nat × Nat))
    (hE : Multiset.map Prod.swap E = E) (f : Nat × Nat → F)
    (hf : ∀ e : Nat × Nat, f (e.2, e.1) = -f e) :
    (E.map f).sum = 0 := by
  have h1 : (E.map f).sum = ((E.map Prod.swap).map f).sum := by rw [hE]
  rw [Multiset.map_map] at h1
  have h2 : E.map (f ∘ Prod.swap) = E.map fun e => -f e := by
    apply Multiset.map_congr rfl
    intro e _
    exact hf e
  rw [h2, Multiset.sum_map_neg] at h1
  linarith

/-- The triangle edge-cross contribution splits over the triangle's three
directed edges. -/
theorem dot_triCross_split (t : Vec3 F) (q : Nat → Vec3 F)
    (tr : Nat × Nat × Nat) :
    Vec3.dot t (triCross (q tr.1) (q tr.2.1) (q tr.2.2)) =
      edgeDot t q (tr.1, tr.2.1) + edgeDot t q (tr.2.1, tr.2.2) +
        edgeDot t q (tr.2.2, tr.1) := by
  simp only [edgeDot, triCross, Vec3.dot_def, Vec3.add_x, Vec3.add_y,
    Vec3.add_z, Vec3.cross_x, Vec3.cross_y, Vec3.cross_z]
  ring

/-- The rigid-motion invariance of the signed volume sum over a closed
mesh. -/
theorem sumSignedVolume_rigid (R : Mat3 F) (t : Vec3 F) (pos : List (Vec3 F))
    (index : List (Nat × Nat × Nat))
    (hrange : ∀ tr ∈ index, tr.1 < pos.length ∧ tr.2.1 < pos.length ∧
      tr.2.2 < pos.length)
    (hclosed : IsClosed index) (hdet : Mat3.det R = 1) :
    sumSignedVolume (pos.map fun p => Vec3.add (Mat3.mulVec R p) t) index =
      sumSignedVolume pos index := by
  have getD_map : ∀ i, i < pos.length →
      (pos.map fun p => Vec3.add (Mat3.mulVec R p) t).getD i Vec3.zero =
        Vec3.add (Mat3.mulVec R (pos.getD i Vec3.zero)) t := by
    intro i hi
    rw [List.getD_eq_getElem?_getD, List.getD_eq_getElem?_getD,
      List.getElem?_map, List.getElem?_eq_getElem hi]
    rfl
  rw [sumSignedVolume_eq_sum, sumSignedVolume_eq_sum]
  have hcongr : index.map (fun tr => signedVolumeOfTriangle
      ((pos.map fun p => Vec3.add (Mat3.mulVec R p) t).getD tr.1 Vec3.zero)
      ((pos.map fun p => Vec3.add (Mat3.mulVec R p) t).getD tr.2.1 Vec3.zero)
      ((pos.map fun p => Vec3.add (Mat3.mulVec R p) t).getD tr.2.2 Vec3.zero))
      = index.map (fun tr =>
        Mat3.det R * signedVolumeOfTriangle (pos.getD tr.1 Vec3.zero)
          (pos.getD tr.2.1 Vec3.zero) (pos.getD tr.2.2 Vec3.zero) +
        Vec3.dot t (triCross (Mat3.mulVec R (pos.getD tr.1 Vec3.zero))
          (Mat3.mulVec R (pos.getD tr.2.1 Vec3.zero))
          (Mat3.mulVec R (pos.getD tr.2.2 Vec3.zero))) / 6) := by
    apply List.map_congr_left
    intro tr htr
    obtain ⟨h1, h2, h3⟩ := hrange tr htr
    rw [getD_map _ h1, getD_map _ h2, getD_map _ h3, signedVolume_rigid]
  rw [hcongr, sumMap_add, sumMap_mul_left, hdet, one_mul, sumMap_div]
  have hzero : (index.map (fun tr =>
      Vec3.dot t (triCross (Mat3.mulVec R (pos.getD tr.1 Vec3.zero))
        (Mat3.mulVec R (pos.getD tr.2.1 Vec3.zero))
        (Mat3.mulVec R (pos.getD tr.2.2 Vec3.zero))))).sum = 0 := by
    rw [List.map_congr_left (fun tr _ => dot_triCross_split t
        (fun i => Mat3.mulVec R (pos.getD i Vec3.zero)) tr),
      sumMap_triEdges index
        (edgeDot t (fun i => Mat3.mulVec R (pos.getD i Vec3.zero)))]
    have hlist : ((meshEdges index).map
        (edgeDot t (fun i => Mat3.mulVec R (pos.getD i Vec3.zero)))).sum =
        ((meshEdges index : Multiset (Nat × Nat)).map
          (edgeDot t (fun i => Mat3.mulVec R (pos.getD i Vec3.zero)))).sum := by
      rw [Multiset.map_coe, Multiset.sum_coe]
    rw [hlist]
    apply sum_swapInvariant_eq_zero _ hclosed
    intro e
    simp only [edgeDot, Vec3.dot_def, Vec3.cross_x, Vec3.cross_y, Vec3.cross_z]
    ring
  rw [hzero, zero_div, add_zero]

/-- Reversing every triangle's winding negates the signed volume sum. -/
theorem sumSignedVolume_reverse (pos : List (Vec3 F))
    (index : List (Nat × Nat × Nat)) :
    sumSignedVolume pos (index.map fun tr => (tr.1, tr.2.2, tr.2.1)) =
      -sumSignedVolume pos index := by
  rw [sumSignedVolume_eq_sum, sumSignedVolume_eq_sum, List.map_map]
  rw [show ((fun t : Nat × Nat × Nat => signedVolumeOfTriangle
      (pos.getD t.1 Vec3.zero) (pos.getD t.2.1 Vec3.zero)
      (pos.getD t.2.2 Vec3.zero)) ∘ fun tr : Nat × Nat × Nat =>
        (tr.1, tr.2.2, tr.2.1)) = fun tr : Nat × Nat × Nat =>
      -(signedVolumeOfTriangle (pos.getD tr.1 Vec3.zero)
        (pos.getD tr.2.1 Vec3.zero) (pos.getD tr.2.2 Vec3.zero)) from
    funext fun tr => signedVolume_swap _ _ _]
  exact sumMap_neg _ _

/-- C7: for a closed indexed triangle mesh (in-range indices, directed edge
multiset invariant under reversal), the computed volume is invariant under
any rigid motion `p ↦ R p + t` with `R` orthogonal of determinant one, and
reversing the winding of every triangle leaves it unchanged because only the
absolute value of the signed sum is returned. -/
theorem claim_C7_volume_invariance (R : Mat3 F) (t : Vec3 F)
    (pos : List (Vec3 F)) (index : List (Nat × Nat × Nat))
    (horth : Mat3.mul (Mat3.transpose R) R = Mat3.one)
    (hdet : Mat3.det R = 1)
    (hclosed : IsClosed index)
    (hrange : ∀ tr ∈ index, tr.1 < pos.length ∧ tr.2.1 < pos.length ∧
      tr.2.2 < pos.length) :
    calculateVolumeSTL ⟨some (pos.map fun p => Vec3.add (Mat3.mulVec R p) t),
        index⟩ = calculateVolumeSTL ⟨some pos, index⟩ ∧
    calculateVolumeSTL ⟨some pos, index.map fun tr => (tr.1, tr.2.2, tr.2.1)⟩
        = calculateVolumeSTL ⟨some pos, index⟩ := by
  constructor
  · simp only [calculateVolumeSTL]
    rw [sumSignedVolume_rigid R t pos index hrange hclosed hdet]
  · simp only [calculateVolumeSTL]
    rw [sumSignedVolume_reverse, abs_neg]

/-- Witness for C7: a concrete closed tetrahedron, a 90° rotation about the
z-axis, and an integer translation, over `ℚ`. -/
theorem claim_C7_witness :
    (Mat3.mul (Mat3.transpose ⟨0, -1, 0, 1, 0, 0, 0, 0, 1⟩)
        (⟨0, -1, 0, 1, 0, 0, 0, 0, 1⟩ : Mat3 ℚ) = Mat3.one ∧
      Mat3.det (⟨0, -1, 0, 1, 0, 0, 0, 0, 1⟩ : Mat3 ℚ) = 1 ∧
      IsClosed [(0, 2, 1), (0, 1, 3), (0, 3, 2), (1, 2, 3)]) ∧
    calculateVolumeSTL ⟨some (([⟨0, 0, 0⟩, ⟨1, 0, 0⟩, ⟨0, 1, 0⟩, ⟨0, 0, 1⟩] :
        List (Vec3 ℚ)).map fun p =>
          Vec3.add (Mat3.mulVec ⟨0, -1, 0, 1, 0, 0, 0, 0, 1⟩ p) ⟨3, -2, 5⟩),
      [(0, 2, 1), (0, 1, 3), (0, 3, 2), (1, 2, 3)]⟩ =
    calculateVolumeSTL ⟨some ([⟨0, 0, 0⟩, ⟨1, 0, 0⟩, ⟨0, 1, 0⟩, ⟨0, 0, 1⟩] :
        List (Vec3 ℚ)), [(0, 2, 1), (0, 1, 3), (0, 3, 2), (1, 2, 3)]⟩ :=
  ⟨⟨by simp only [Mat3.mul, Mat3.transpose, Mat3.one, Mat3.mk.injEq]; norm_num,
    by simp only [Mat3.det]; norm_num,
    by unfold IsClosed; decide⟩,
   (claim_C7_volume_invariance ⟨0, -1, 0, 1, 0, 0, 0, 0, 1⟩ ⟨3, -2, 5⟩
      [⟨0, 0, 0⟩, ⟨1, 0, 0⟩, ⟨0, 1, 0⟩, ⟨0, 0, 1⟩]
      [(0, 2, 1), (0, 1, 3), (0, 3, 2), (1, 2, 3)]
      (by simp only [Mat3.mul, Mat3.transpose, Mat3.one, Mat3.mk.injEq]; norm_num)
      (by simp only [Mat3.det]; norm_num)
      (by unfold IsClosed; decide) (by decide)).1⟩

/-!
## Claim C1: candidate count and sorted output
-/

theorem sqrt_zero_of_isSqrt {ops : RealOps F} (h : IsSqrt ops) :
    ops.sqrt 0 = 0 := by
  have := (h 0 le_rfl).2
  exact mul_self_eq_zero.mp this

theorem sqrt_one_of_isSqrt {ops : RealOps F} (h : IsSqrt ops) :
    ops.sqrt 1 = 1 := by
  obtain ⟨hnn, hsq⟩ := h 1 (by norm_num)
  nlinarith

/-- After normalization, the three.js `length() > 0.01` test holds exactly
when the original vector was nonzero (the normalized vector has length 0 or
1). -/
theorem length_normalize_criterion {ops : RealOps F} (h : IsSqrt ops)
    (v : Vec3 F) :
    ((0.01 : F) < Vec3.length ops (Vec3.normalize ops v)) ↔ v ≠ Vec3.zero := by
  by_cases hv : v = Vec3.zero
  · subst hv
    have hd : Vec3.dot (Vec3.zero : Vec3 F) Vec3.zero = 0 := by
      simp [Vec3.dot_def]
    have hnorm : Vec3.normalize ops (Vec3.zero : Vec3 F) = Vec3.zero := by
      rw [Vec3.normalize]
      simp [Vec3.length, hd, sqrt_zero_of_isSqrt h]
    rw [hnorm, Vec3.length, hd, sqrt_zero_of_isSqrt h]
    constructor
    · intro hlt
      exact absurd hlt (by norm_num)
    · intro hne
      exact absurd rfl hne
  · have h1 : Vec3.dot (Vec3.normalize ops v) (Vec3.normalize ops v) = 1 :=
      Vec3.dot_normalize_self h hv
    rw [Vec3.length, h1, sqrt_one_of_isSqrt h]
    constructor
    · intro _
      exact hv
    · intro _
      norm_num

/-- Candidate count: 6 base orientations, plus one exactly when a functional
direction exists whose cross product with up is nonzero. -/
theorem generateCandidateOrientations_length {ops : RealOps F}
    (h : IsSqrt ops) (features : FeatureDetectionResult F) :
    ((generateCandidateOrientations ops features).length = 6 ∨
      (generateCandidateOrientations ops features).length = 7) ∧
    ((generateCandidateOrientations ops features).length = 7 ↔
      ∃ fd, features.functionalDirection = some fd ∧
        Vec3.cross fd upVector ≠ Vec3.zero) := by
  rw [generateCandidateOrientations]
  cases hfd : features.functionalDirection with
  | none => simp
  | some fd =>
    dsimp only
    by_cases hc : Vec3.cross fd upVector = Vec3.zero
    · have hguard : ¬((0.01 : F) <
          Vec3.length ops (Vec3.normalize ops (Vec3.cross fd upVector))) := by
        rw [length_normalize_criterion h]
        simpa using hc
      rw [if_neg hguard]
      simp [hc]
    · rw [if_pos ((length_normalize_criterion h _).mpr hc)]
      simp [hc]

/-- On the zero-triangle mesh every instrumented candidate evaluation is
undefined (the support fraction is `0 / (0 / 3)`, IEEE NaN, and the bounding
box is empty), so the instrumented analyzer returns no result list. -/
theorem analyzeOrientationOpt_empty_eq_none :
    analyzeOrientationOpt ratOps emptyGeometry = none := by
  have hfeat : detectFeatures ratOps emptyGeometry = emptyFeatures := rfl
  have hnonnil : generateCandidateOrientations ratOps emptyFeatures ≠ [] := by
    rw [generateCandidateOrientations]
    simp [emptyFeatures]
  obtain ⟨a, rest, hc⟩ := List.exists_cons_of_ne_nil hnonnil
  have hone : scoreOneOpt ratOps emptyGeometry emptyFeatures a = none := by
    simp [scoreOneOpt, calculateSupportVolumeOpt, applyMatrix4, emptyGeometry]
  rw [analyzeOrientationOpt, hfeat, hc, List.mapM_cons, hone]
  rfl

/-- C1 counterexample: the claim quantifies over every input mesh, but on
two inputs the program does not return a 6/7-element list sorted by score.
On the well-formed zero-triangle mesh each candidate's support fraction is
`0 / (0 / 3)` (IEEE NaN) and the bounding-box height is non-finite, so every
score is NaN and no score comparison holds (the instrumented analyzer
returns `none`: there is no list of finitely-scored, score-sorted results).
On a one-triangle mesh whose normal attribute is missing, the candidate
evaluation's `calculateSupportVolume` dereferences
`geometry.attributes.normal.count` with the attribute absent — a JavaScript
`TypeError` — so `analyzeOrientation` throws and returns no list at all. -/
theorem claim_C1_counterexample :
    analyzeOrientationOpt ratOps emptyGeometry = none ∧
    calculateSupportVolumeAttr ratOps
      (applyMatrix4 ratOps (eulerMatrix ratOps ⟨0, 0, 0⟩)
        (⟨true, false, [sampleFace], none⟩ : BufferGeometry ℚ)) = none :=
  ⟨analyzeOrientationOpt_empty_eq_none, rfl⟩

/-- C1 (amended): for every mesh with position and normal data present and
at least one triangle, `analyzeOrientation` returns exactly 6 or 7 results —
7 iff a functional direction was detected whose cross product with the world
up-axis is nonzero (the degenerate parallel case is skipped) — and the
returned list is sorted non-increasing by score. The hypotheses delimit the
domain on which the exact embedding matches the floating-point program: with
zero triangles the program's scores are IEEE NaN, so no score-sorted list is
returned, and with the normal attribute missing the support-volume loop
throws, so no list is returned at all (see the counterexample). -/
theorem claim_C1_count_and_sorted [FloorRing F] (ops : RealOps F)
    (h : IsSqrt ops) (g : BufferGeometry F) (hp : g.hasPosition = true)
    (hn : g.hasNormal = true) (hne : g.faces ≠ []) :
    ((analyzeOrientation ops g).length = 6 ∨
      (analyzeOrientation ops g).length = 7) ∧
    ((analyzeOrientation ops g).length = 7 ↔
      ∃ fd, (detectFeatures ops g).functionalDirection = some fd ∧
        Vec3.cross fd upVector ≠ Vec3.zero) ∧
    List.Pairwise (fun a b : OrientationResult F => b.score ≤ a.score)
      (analyzeOrientation ops g) := by
  have hlen : (analyzeOrientation ops g).length =
      (generateCandidateOrientations ops (detectFeatures ops g)).length := by
    simp only [analyzeOrientation, scoreOrientations]
    rw [List.length_mergeSort, List.length_map]
  obtain ⟨h6or7, hiff⟩ :=
    generateCandidateOrientations_length h (detectFeatures ops g)
  refine ⟨?_, ?_, ?_⟩
  · rw [hlen]
    exact h6or7
  · rw [hlen]
    exact hiff
  · have htrans : ∀ a b c : OrientationResult F, scoreDescBool a b →
        scoreDescBool b c → scoreDescBool a c := by
      intro a b c hab hbc
      simp only [scoreDescBool, decide_eq_true_eq] at *
      exact le_trans hbc hab
    have htotal : ∀ a b : OrientationResult F,
        scoreDescBool a b || scoreDescBool b a := by
      intro a b
      simp only [scoreDescBool, Bool.or_eq_true, decide_eq_true_eq]
      exact le_total b.score a.score
    have hsorted := List.sorted_mergeSort htrans htotal
      (scoreOrientations ops g
        (generateCandidateOrientations ops (detectFeatures ops g))
        (detectFeatures ops g))
    simp only [analyzeOrientation]
    refine hsorted.imp ?_
    intro a b hab
    simpa [scoreDescBool, decide_eq_true_eq] using hab

/-- `Real.sqrt` is an exact square root. -/
theorem isSqrt_realOps : IsSqrt realOps :=
  fun q hq => ⟨Real.sqrt_nonneg q, Real.mul_self_sqrt hq⟩

/-- Witness for the amended C1: a concrete one-face mesh with both
attributes present, over `ℝ` with the real square root. -/
theorem claim_C1_witness :
    (IsSqrt realOps ∧
      (⟨true, true, [zeroFace], none⟩ : BufferGeometry ℝ).faces ≠ []) ∧
    ((analyzeOrientation realOps ⟨true, true, [zeroFace], none⟩).length = 6 ∨
      (analyzeOrientation realOps ⟨true, true, [zeroFace], none⟩).length = 7) :=
  ⟨⟨isSqrt_realOps, by simp⟩,
   (claim_C1_count_and_sorted realOps isSqrt_realOps
      ⟨true, true, [zeroFace], none⟩ rfl rfl (by simp)).1⟩

/-!
## Claim C9: determinism / idempotence
-/

/-- `analyzeOrientation` reads only the attributes, never the bounding-box
cache (every read of `geometry.boundingBox` in the source follows a
`computeBoundingBox()` recomputation). -/
theorem analyzeOrientation_cache_irrelevant [FloorRing F] (ops : RealOps F)
    (hp hn : Bool) (fs : List (FaceData F)) (c c' : Option (Vec3 F × Vec3 F)) :
    analyzeOrientation ops ⟨hp, hn, fs, c⟩ =
      analyzeOrientation ops ⟨hp, hn, fs, c'⟩ := rfl

/-- C9: `analyzeOrientation` is deterministic. The only shared state a run
writes is the geometry's bounding-box cache; running the analyzer again on
the geometry state left behind by a first run returns the identical result
list — same rotations, scores, support fractions, time proxies, qualities,
descriptions, and ordering. -/
theorem claim_C9_deterministic [FloorRing F] (ops : RealOps F)
    (g : BufferGeometry F) :
    (analyzeOrientationRun ops ((analyzeOrientationRun ops g).2)).1 =
      (analyzeOrientationRun ops g).1 := by
  rcases g with ⟨hp, hn, fs, c⟩
  simp only [analyzeOrientationRun, computeBoundingBoxRun]
  by_cases hcond : (hp && hn && !fs.isEmpty) = true
  · rw [if_pos hcond]
    exact analyzeOrientation_cache_irrelevant ops hp hn fs _ c
  · rw [if_neg hcond]

/-!
## Claim C10: the score is bounded by 1.2

Component bounds: the support fraction is a face count over the face count
(in `[0, 1]`), the time proxy is a bounding-box height (nonnegative) times
`1 + 0.5·support`, and the quality is `0.5` or a normalized direction's
`y`-component mapped into `[0, 1]`.
-/

theorem calculateSupportVolume_denom (g : BufferGeometry F) :
    ((3 * g.faces.length : Nat) : F) / 3 = (g.faces.length : F) := by
  push_cast
  ring

theorem calculateSupportVolume_nonneg (ops : RealOps F) (g : BufferGeometry F) :
    0 ≤ calculateSupportVolume ops g := by
  rw [calculateSupportVolume, calculateSupportVolume_denom]
  positivity

theorem calculateSupportVolume_le_one (ops : RealOps F) (g : BufferGeometry F)
    (hne : g.faces ≠ []) : calculateSupportVolume ops g ≤ 1 := by
  rw [calculateSupportVolume, calculateSupportVolume_denom]
  have hlen : 0 < (g.faces.length : F) := by
    have : 0 < g.faces.length := List.length_pos.mpr hne
    exact_mod_cast this
  rw [div_le_one hlen]
  exact_mod_cast List.countP_le_length _

theorem foldl_minmax_y (l : List (Vec3 F)) :
    ∀ a b : Vec3 F, a.y ≤ b.y →
      (l.foldl (fun mm q => (vmin mm.1 q, vmax mm.2 q)) (a, b)).1.y ≤
        (l.foldl (fun mm q => (vmin mm.1 q, vmax mm.2 q)) (a, b)).2.y := by
  induction l with
  | nil => intro a b hab; exact hab
  | cons q l ih =>
    intro a b hab
    simp only [List.foldl_cons]
    apply ih
    simp only [vmin, vmax]
    exact le_trans (le_trans (min_le_right a.y q.y) (le_max_right b.y q.y))
      le_rfl

theorem computeBoundingBox_y_le (g : BufferGeometry F) {mn mx : Vec3 F}
    (hbb : computeBoundingBox g = some (mn, mx)) : mn.y ≤ mx.y := by
  rw [computeBoundingBox] at hbb
  cases hps : positionsList g with
  | nil => rw [hps] at hbb; exact absurd hbb (by simp)
  | cons p ps =>
    rw [hps] at hbb
    simp only [Option.some.injEq] at hbb
    have hy := foldl_minmax_y (F := F) ps p p le_rfl
    rw [hbb] at hy
    exact hy

theorem estimatePrintTime_nonneg (g : BufferGeometry F) (s : F)
    (hs : 0 ≤ s) : 0 ≤ estimatePrintTime g s := by
  rw [estimatePrintTime]
  cases hbb : computeBoundingBox g with
  | none => norm_num
  | some mm =>
    rcases mm with ⟨mn, mx⟩
    have hy := computeBoundingBox_y_le g hbb
    have h1 : (0 : F) ≤ 1 + s * 0.5 := by nlinarith
    exact mul_nonneg (by linarith) h1

/-- Structure of a detected functional direction: it is always
`determineFunctionalDirection` over a nonempty hole index list. -/
theorem detectFeatures_fd_spec (ops : RealOps F) (g : BufferGeometry F)
    (fd : Vec3 F)
    (hfd : (detectFeatures ops g).functionalDirection = some fd) :
    ∃ idxs : List Nat, idxs ≠ [] ∧
      fd = determineFunctionalDirection ops g idxs := by
  rw [detectFeatures] at hfd
  by_cases hattr : g.hasPosition = false ∨ g.hasNormal = false
  · rw [if_pos hattr] at hfd
    exact absurd hfd (by simp [emptyFeatures])
  · rw [if_neg hattr] at hfd
    set holeIdx := (g.faces.enum.filter
      (fun fi => isPotentialHoleFace ops g fi.2 (faceNormal ops fi.2))).map
      (fun fi => fi.1) with hhole
    by_cases hlen : holeIdx.length > 0
    · rw [if_pos hlen] at hfd
      simp only [processHoleCandidates] at hfd
      rw [if_pos hlen] at hfd
      simp only [Option.some.injEq] at hfd
      refine ⟨holeIdx, ?_, hfd.symm⟩
      intro hnil
      rw [hnil] at hlen
      exact absurd hlen (by simp)
    · rw [if_neg hlen] at hfd
      exact absurd hfd (by simp)

/-- `determineFunctionalDirection` is a `normalize` image. -/
theorem determineFunctionalDirection_normalize (ops : RealOps F)
    (g : BufferGeometry F) (idxs : List Nat) :
    ∃ w : Vec3 F, determineFunctionalDirection ops g idxs =
      Vec3.normalize ops w := by
  rw [determineFunctionalDirection]
  exact ⟨_, rfl⟩

theorem normalize_dot_self_le_one {ops : RealOps F} (h : IsSqrt ops)
    (w : Vec3 F) :
    Vec3.dot (Vec3.normalize ops w) (Vec3.normalize ops w) ≤ 1 := by
  by_cases hw : w = Vec3.zero
  · subst hw
    have hd : Vec3.dot (Vec3.zero : Vec3 F) Vec3.zero = 0 := by
      simp [Vec3.dot_def]
    rw [Vec3.normalize]
    simp [Vec3.length, hd, sqrt_zero_of_isSqrt h]
  · rw [Vec3.dot_normalize_self h hw]

theorem y_bounds_of_dot_self_le_one (n : Vec3 F)
    (hn : Vec3.dot n n ≤ 1) : -1 ≤ n.y ∧ n.y ≤ 1 := by
  rw [Vec3.dot_def] at hn
  constructor <;>
    nlinarith [mul_self_nonneg n.x, mul_self_nonneg n.z,
      mul_self_nonneg (n.y - 1), mul_self_nonneg (n.y + 1)]

theorem estimatePrintQuality_bounds (tempg : BufferGeometry F)
    (features : FeatureDetectionResult F)
    (hq : ∀ fd : Vec3 F, features.functionalDirection = some fd →
      -1 ≤ fd.y ∧ fd.y ≤ 1) :
    0 ≤ estimatePrintQuality tempg features ∧
      estimatePrintQuality tempg features ≤ 1 := by
  rw [estimatePrintQuality]
  by_cases hh : features.hasHoles = true
  · rw [if_pos hh]
    cases hfd : features.functionalDirection with
    | none => norm_num
    | some fd =>
      dsimp only
      have hdot : Vec3.dot fd upVector = fd.y := by
        simp [Vec3.dot_def, upVector]
      obtain ⟨h1, h2⟩ := hq fd hfd
      rw [hdot]
      constructor <;> linarith
  · rw [if_neg hh]
    norm_num

/-- C10: for every mesh with at least one face, every result emitted by
`analyzeOrientation` has score at most 1.2 — the support term is at most
0.3, the time term at most 0.2, the quality term at most 0.5, and the
alignment bonus adds at most 0.2. -/
theorem claim_C10_score_bounded [FloorRing F] (ops : RealOps F)
    (h : IsSqrt ops) (g : BufferGeometry F) (hne : g.faces ≠ []) :
    ∀ r ∈ analyzeOrientation ops g, r.score ≤ (1.2 : F) := by
  intro r hr
  obtain ⟨o, _, rfl⟩ := mem_analyzeOrientation ops g r hr
  simp only [scoreOne]
  have htne : (applyMatrix4 ops (eulerMatrix ops o) g).faces ≠ [] := by
    simp only [applyMatrix4]
    simpa using hne
  have hs0 := calculateSupportVolume_nonneg ops
    (applyMatrix4 ops (eulerMatrix ops o) g)
  have hs1 := calculateSupportVolume_le_one ops
    (applyMatrix4 ops (eulerMatrix ops o) g) htne
  have ht0 := estimatePrintTime_nonneg
    (applyMatrix4 ops (eulerMatrix ops o) g)
    (calculateSupportVolume ops (applyMatrix4 ops (eulerMatrix ops o) g)) hs0
  have hqb := estimatePrintQuality_bounds
    (applyMatrix4 ops (eulerMatrix ops o) g) (detectFeatures ops g)
    (by
      intro fd hfd
      obtain ⟨idxs, _, hfd2⟩ := detectFeatures_fd_spec ops g fd hfd
      obtain ⟨w, hw⟩ := determineFunctionalDirection_normalize ops g idxs
      rw [hfd2, hw]
      exact y_bounds_of_dot_self_le_one _ (normalize_dot_self_le_one h w))
  rw [calculateOverallScore]
  set s := calculateSupportVolume ops (applyMatrix4 ops (eulerMatrix ops o) g)
  set t := estimatePrintTime (applyMatrix4 ops (eulerMatrix ops o) g) s
  set q := estimatePrintQuality (applyMatrix4 ops (eulerMatrix ops o) g)
    (detectFeatures ops g)
  have hbase : (1 - s) * (0.3 : F) + (1 - t) * (0.2 : F) + q * (0.5 : F) ≤ 1 := by
    nlinarith [hs0, ht0, hqb.1, hqb.2]
  by_cases hh : (detectFeatures ops g).hasHoles = true
  · rw [if_pos hh]
    cases hfd : (detectFeatures ops g).functionalDirection with
    | none => norm_num; linarith
    | some fd =>
      dsimp only
      by_cases hal : (0.8 : F) < Vec3.dot fd
          (Mat3.mulVec (eulerMatrix ops o) upVector)
      · rw [if_pos hal]
        norm_num
        linarith
      · rw [if_neg hal]
        norm_num
        linarith
  · rw [if_neg hh]
    norm_num
    linarith

/-- Witness for C10: a concrete one-face mesh over `ℝ` with the real square
root. -/
theorem claim_C10_witness :
    (IsSqrt realOps ∧
      (⟨true, true, [zeroFace], none⟩ : BufferGeometry ℝ).faces ≠ []) ∧
    ∀ r ∈ analyzeOrientation realOps
        (⟨true, true, [zeroFace], none⟩ : BufferGeometry ℝ),
      r.score ≤ (1.2 : ℝ) :=
  ⟨⟨isSqrt_realOps, by simp⟩,
   claim_C10_score_bounded realOps isSqrt_realOps
     ⟨true, true, [zeroFace], none⟩ (by simp)⟩

/-!
## Claim C6: numerically degenerate meshes

On a mesh with zero triangles the source divides `0 / (0 / 3)` in
`calculateSupportVolume` (IEEE `NaN`) and takes the height of an empty
bounding box (non-finite); the instrumented pipeline reports this as `none`.
With at least one face, the instrumented pipeline is totally defined and
agrees with the exact one.
-/

theorem mapM_eq_some_map {α β : Type} (l : List α) (f : α → Option β)
    (h : α → β) (hf : ∀ a ∈ l, f a = some (h a)) :
    l.mapM f = some (l.map h) := by
  induction l with
  | nil => rfl
  | cons a l ih =>
    rw [List.mapM_cons, hf a (List.mem_cons_self a l),
      ih (fun x hx => hf x (List.mem_cons_of_mem a hx))]
    rfl

theorem positionsList_ne_nil (g : BufferGeometry F) (hne : g.faces ≠ []) :
    positionsList g ≠ [] := by
  rw [positionsList]
  cases hfs : g.faces with
  | nil => exact absurd hfs hne
  | cons f fs => simp

theorem computeBoundingBox_isSome (g : BufferGeometry F)
    (hne : g.faces ≠ []) : ∃ mm, computeBoundingBox g = some mm := by
  rw [computeBoundingBox]
  cases hps : positionsList g with
  | nil => exact absurd hps (positionsList_ne_nil g hne)
  | cons p ps => exact ⟨_, rfl⟩

theorem applyMatrix4_faces_ne_nil (ops : RealOps F) (m : Mat3 F)
    (g : BufferGeometry F) (hne : g.faces ≠ []) :
    (applyMatrix4 ops m g).faces ≠ [] := by
  simp only [applyMatrix4]
  simpa using hne

theorem calculateSupportVolumeOpt_eq_some (ops : RealOps F)
    (g : BufferGeometry F) (hne : g.faces ≠ []) :
    calculateSupportVolumeOpt ops g = some (calculateSupportVolume ops g) := by
  rw [calculateSupportVolumeOpt, calculateSupportVolume]
  have hd : ((3 * g.faces.length : Nat) : F) / 3 ≠ 0 := by
    rw [calculateSupportVolume_denom]
    have : 0 < g.faces.length := List.length_pos.mpr hne
    positivity
  rw [if_neg hd]

theorem estimatePrintTimeOpt_eq_some (g : BufferGeometry F)
    (hne : g.faces ≠ []) (s : F) :
    estimatePrintTimeOpt g s = some (estimatePrintTime g s) := by
  obtain ⟨⟨mn, mx⟩, hmm⟩ := computeBoundingBox_isSome g hne
  rw [estimatePrintTimeOpt, estimatePrintTime, hmm]

theorem scoreOneOpt_eq_some [FloorRing F] (ops : RealOps F)
    (g : BufferGeometry F) (features : FeatureDetectionResult F)
    (o : Euler F) (hne : g.faces ≠ []) :
    scoreOneOpt ops g features o = some (scoreOne ops g features o) := by
  have htne := applyMatrix4_faces_ne_nil ops (eulerMatrix ops o) g hne
  rw [scoreOneOpt, scoreOne]
  simp only [calculateSupportVolumeOpt_eq_some ops _ htne,
    estimatePrintTimeOpt_eq_some (applyMatrix4 ops (eulerMatrix ops o) g) htne,
    Option.bind_eq_bind, Option.some_bind]
  rfl

theorem analyzeOrientationOpt_eq_some [FloorRing F] (ops : RealOps F)
    (g : BufferGeometry F) (hne : g.faces ≠ []) :
    analyzeOrientationOpt ops g = some (analyzeOrientation ops g) := by
  rw [analyzeOrientationOpt, analyzeOrientation]
  rw [mapM_eq_some_map _ _ _
    (fun o _ => scoreOneOpt_eq_some ops g (detectFeatures ops g) o hne)]
  rfl

/-- C6 counterexample: on a well-formed mesh with zero triangles (both
attributes present, no faces) the pipeline's support-fraction division is
`0 / (0 / 3)` and the bounding box is empty, so the emitted values are not
finite — the instrumented analyzer returns `none`, contradicting the claim
that every such mesh yields finite support fraction, time proxy and
score. -/
theorem claim_C6_counterexample :
    analyzeOrientationOpt ratOps emptyGeometry = none :=
  analyzeOrientationOpt_empty_eq_none

/-- C6 (amended): for every mesh with at least one triangle,
`analyzeOrientation` completes with every arithmetic step defined (the
instrumented pipeline returns `some` and agrees with the exact one), and
every emitted result has support fraction in `[0, 1]` and nonnegative time
proxy. A zero-triangle mesh instead produces non-finite values. -/
theorem claim_C6_degenerate_meshes [FloorRing F] (ops : RealOps F)
    (g : BufferGeometry F) (hne : g.faces ≠ []) :
    analyzeOrientationOpt ops g = some (analyzeOrientation ops g) ∧
    ∀ r ∈ analyzeOrientation ops g, 0 ≤ r.supportVolume ∧
      r.supportVolume ≤ 1 ∧ 0 ≤ r.printTime := by
  refine ⟨analyzeOrientationOpt_eq_some ops g hne, ?_⟩
  intro r hr
  obtain ⟨o, _, rfl⟩ := mem_analyzeOrientation ops g r hr
  simp only [scoreOne]
  have htne := applyMatrix4_faces_ne_nil ops (eulerMatrix ops o) g hne
  exact ⟨calculateSupportVolume_nonneg ops _,
    calculateSupportVolume_le_one ops _ htne,
    estimatePrintTime_nonneg _ _ (calculateSupportVolume_nonneg ops _)⟩

/-- Witness for the amended C6 at a concrete one-face mesh over `ℚ`. -/
theorem claim_C6_witness :
    sampleGeometry.faces ≠ [] ∧
    (analyzeOrientationOpt ratOps sampleGeometry =
        some (analyzeOrientation ratOps sampleGeometry) ∧
      ∀ r ∈ analyzeOrientation ratOps sampleGeometry,
        0 ≤ r.supportVolume ∧ r.supportVolume ≤ 1 ∧ 0 ≤ r.printTime) :=
  ⟨by simp [sampleGeometry],
   claim_C6_degenerate_meshes ratOps sampleGeometry (by simp [sampleGeometry])⟩

/-!
## Claim C8: the functional direction

The claim states the functional direction is always a unit vector. The
source normalizes the negated average of the hole faces' unit normals — but
when those normals cancel (holes on opposite sides of the part facing each
other), the average is zero and `normalize` leaves the zero vector unchanged,
so the "functional direction" is the zero vector, not a unit vector.
-/

theorem dot_neg_neg (a : Vec3 F) :
    Vec3.dot (Vec3.neg a) (Vec3.neg a) = Vec3.dot a a := by
  simp only [Vec3.dot_def, Vec3.neg_x, Vec3.neg_y, Vec3.neg_z]
  ring

/-- C8 counterexample: on `holeGeometry` both faces are hole candidates, so
feature detection produces a functional direction — but it is the zero
vector (the two hole normals cancel), which is not a unit vector. -/
theorem claim_C8_counterexample :
    (detectFeatures ratOps holeGeometry).functionalDirection =
      some ⟨0, 0, 0⟩ ∧
    Vec3.dot (⟨0, 0, 0⟩ : Vec3 ℚ) ⟨0, 0, 0⟩ ≠ 1 := by
  constructor
  · norm_num [detectFeatures, holeGeometry, isFlatFace, isOverhangFace,
      isPotentialHoleFace, faceNormal, Vec3.normalize, Vec3.length,
      Vec3.dot_def, Vec3.add, Vec3.smul, Vec3.sub, Vec3.neg,
      computeBoundingBox, positionsList, vmin, vmax, upVector, downVector,
      normalThreshold, holeDetectionThreshold, determineFunctionalDirection,
      processHoleCandidates, emptyFeatures, ratOps, zeroFace, List.enum,
      List.enumFrom, decide_eq_true_eq, Vec3.ext_iff]
  · norm_num [Vec3.dot_def]

/-- C8 (amended): whenever feature detection produces a functional
direction, it is `determineFunctionalDirection` over the (nonempty) hole
index list; that vector equals the negation of the normalized average of the
hole faces' unit face normals, and it is a unit vector whenever that average
is nonzero — when the hole normals cancel to a zero average, it is instead
the zero vector. -/
theorem claim_C8_functional_direction (ops : RealOps F) (h : IsSqrt ops)
    (g : BufferGeometry F) (holeIndices : List Nat)
    (hne : holeIndices ≠ []) :
    determineFunctionalDirection ops g holeIndices =
      Vec3.neg (Vec3.normalize ops (holeFaceNormalAverage ops g holeIndices)) ∧
    (holeFaceNormalAverage ops g holeIndices ≠ Vec3.zero →
      Vec3.dot (determineFunctionalDirection ops g holeIndices)
        (determineFunctionalDirection ops g holeIndices) = 1) ∧
    (∀ fd : Vec3 F, (detectFeatures ops g).functionalDirection = some fd →
      ∃ idxs : List Nat, idxs ≠ [] ∧
        fd = determineFunctionalDirection ops g idxs) := by
  have hlen : holeIndices.length > 0 := List.length_pos.mpr hne
  have heq : determineFunctionalDirection ops g holeIndices =
      Vec3.normalize ops
        (Vec3.neg (holeFaceNormalAverage ops g holeIndices)) := by
    rw [determineFunctionalDirection, holeFaceNormalAverage]
    rw [if_pos hlen]
  refine ⟨?_, ?_, fun fd hfd => detectFeatures_fd_spec ops g fd hfd⟩
  · rw [heq, Vec3.normalize_neg]
  · intro havg
    rw [heq, Vec3.normalize_neg, dot_neg_neg]
    exact Vec3.dot_normalize_self h havg

/-- Witness for the amended C8: one hole face over `ℝ` with the real square
root. -/
theorem claim_C8_witness :
    (IsSqrt realOps ∧ ([0] : List Nat) ≠ []) ∧
    (determineFunctionalDirection realOps oneHoleFace [0] =
      Vec3.neg (Vec3.normalize realOps
        (holeFaceNormalAverage realOps oneHoleFace [0])) ∧
    (holeFaceNormalAverage realOps oneHoleFace [0] ≠ Vec3.zero →
      Vec3.dot (determineFunctionalDirection realOps oneHoleFace [0])
        (determineFunctionalDirection realOps oneHoleFace [0]) = 1)) := by
  have hmain := claim_C8_functional_direction realOps isSqrt_realOps
    oneHoleFace [0] (by simp)
  exact ⟨⟨isSqrt_realOps, by simp⟩, hmain.1, hmain.2.1⟩

end PrintEstimator
